import Mathlib

/-! PL022 SPI driver (`core/drivers/pl022_spi.c`): clock divisors, configuration, transfers.

A shallow embedding of the driver.  Machine integers are natural numbers; every place where the
C code narrows a value (an 8/16/32-bit register access) reduces modulo the width explicitly.
Loops that poll the hardware take a polling budget `fuel` and return `none` when it runs out;
the bounded `for` loops of the divisor search are total functions.
-/

namespace PL022

/-! ## Constants of the source -/

def SSP_CPSDVR_MAX : Nat := 254
def SSP_CPSDVR_MIN : Nat := 2
def SSP_SCR_MAX : Nat := 255
def SSP_SCR_MIN : Nat := 0

/-! ## Clock divisor solver -/

/-- `pl022_calc_freq`: `pd->clk_hz / (cpsdvr * (1 + scr))`.  The operands `cpsdvr`, `scr` are
`uint8_t`, so the product is at most `254 * 256` and cannot overflow `int`; the quotient of an
`unsigned int` is again an `unsigned int`. -/
def pl022_calc_freq (clk_hz cpsdvr scr : Nat) : Nat :=
  clk_hz / (cpsdvr * (1 + scr))

/-- How a search loop of `pl022_calc_clk_divisors` is left: by `goto done`, by `goto stage2`, or
because its loop condition became false. -/
inductive Exit where
  | done
  | stage2
  | exhausted
  deriving DecidableEq, Repr

/-- The locals of one search stage when control leaves it: the two loop counters and the last
frequency computed. -/
structure Scan where
  exit : Exit
  cpsdvr : Nat
  scr : Nat
  freq : Nat
  deriving DecidableEq, Repr

/-- Inner loop of stage 1,
`for (...; tmp_cpsdvr1 < SSP_CPSDVR_MAX; tmp_cpsdvr1++)`, entered with the counter at `cpsdvr`
and `freq1` holding the last computed frequency. -/
def stage1_inner (clk_hz speed_hz scr cpsdvr freq1 : Nat) : Scan :=
  if h : cpsdvr < SSP_CPSDVR_MAX then
    let f := pl022_calc_freq clk_hz cpsdvr scr
    if f = speed_hz then ⟨Exit.done, cpsdvr, scr, f⟩
    else if f < speed_hz then ⟨Exit.stage2, cpsdvr, scr, f⟩
    else stage1_inner clk_hz speed_hz scr (cpsdvr + 1) f
  else ⟨Exit.exhausted, cpsdvr, scr, freq1⟩
termination_by SSP_CPSDVR_MAX - cpsdvr
decreasing_by omega

/-- Outer loop of stage 1, `for (...; tmp_scr1 < SSP_SCR_MAX; tmp_scr1++)`, entered with the
counter at `scr`; `cpsdvr`, `freq1` are the current values of `tmp_cpsdvr1` and `freq1`. -/
def stage1_outer (clk_hz speed_hz scr cpsdvr freq1 : Nat) : Scan :=
  if h : scr < SSP_SCR_MAX then
    let r := stage1_inner clk_hz speed_hz scr SSP_CPSDVR_MIN freq1
    match r.exit with
    | Exit.exhausted => stage1_outer clk_hz speed_hz (scr + 1) r.cpsdvr r.freq
    | _ => r
  else ⟨Exit.exhausted, cpsdvr, scr, freq1⟩
termination_by SSP_SCR_MAX - scr
decreasing_by omega

/-- Inner loop of stage 2, `for (...; tmp_scr2 < SSP_SCR_MAX; tmp_scr2++)`, entered with the
counter at `scr` and `freq2` holding the last computed frequency. -/
def stage2_inner (clk_hz speed_hz cpsdvr scr freq2 : Nat) : Scan :=
  if h : scr < SSP_SCR_MAX then
    let f := pl022_calc_freq clk_hz cpsdvr scr
    if f ≤ speed_hz then ⟨Exit.done, cpsdvr, scr, f⟩
    else stage2_inner clk_hz speed_hz cpsdvr (scr + 1) f
  else ⟨Exit.exhausted, cpsdvr, scr, freq2⟩
termination_by SSP_SCR_MAX - scr
decreasing_by omega

/-- Outer loop of stage 2, `for (...; tmp_cpsdvr2 < SSP_CPSDVR_MAX; tmp_cpsdvr2++)`, entered
with the counter at `cpsdvr`; `scr`, `freq2` are the current values of `tmp_scr2`, `freq2`. -/
def stage2_outer (clk_hz speed_hz cpsdvr scr freq2 : Nat) : Scan :=
  if h : cpsdvr < SSP_CPSDVR_MAX then
    let r := stage2_inner clk_hz speed_hz cpsdvr SSP_SCR_MIN freq2
    match r.exit with
    | Exit.exhausted => stage2_outer clk_hz speed_hz (cpsdvr + 1) r.scr r.freq
    | _ => r
  else ⟨Exit.exhausted, cpsdvr, scr, freq2⟩
termination_by SSP_CPSDVR_MAX - cpsdvr
decreasing_by omega

/-- Stage 1 of `pl022_calc_clk_divisors` from its start: `freq1 = 0`, `tmp_scr1 = SSP_SCR_MIN`;
`tmp_cpsdvr1` is uninitialised and assigned before it is first read (shown as `0`). -/
def stage1 (clk_hz speed_hz : Nat) : Scan :=
  stage1_outer clk_hz speed_hz SSP_SCR_MIN 0 0

/-- Stage 2 of `pl022_calc_clk_divisors` from the label `stage2`, with `freq2 = 0`,
`tmp_scr2 = 0` as initialised at the declarations. -/
def stage2 (clk_hz speed_hz : Nat) : Scan :=
  stage2_outer clk_hz speed_hz SSP_CPSDVR_MIN 0 0

/-- The stage-2 locals at the label `done`: untouched (`tmp_cpsdvr2 = 0`, `tmp_scr2 = 0`,
`freq2 = 0`) when stage 1 left by `goto done`, otherwise as stage 2 leaves them. -/
def stage2_at_done (clk_hz speed_hz : Nat) : Scan :=
  match (stage1 clk_hz speed_hz).exit with
  | Exit.done => ⟨Exit.done, 0, 0, 0⟩
  | _ => stage2 clk_hz speed_hz

/-- `pl022_calc_clk_divisors`: the pair `(*cpsdvr, *scr)` written at the label `done`. -/
def pl022_calc_clk_divisors (clk_hz speed_hz : Nat) : Nat × Nat :=
  let s1 := stage1 clk_hz speed_hz
  let s2 := stage2_at_done clk_hz speed_hz
  if s1.freq ≥ s2.freq then (s1.cpsdvr, s1.scr) else (s2.cpsdvr, s2.scr)

/-- Bus frequency of a divisor pair, `clk_hz / (prescale * (1 + scr))`. -/
def pair_freq (clk_hz : Nat) (p : Nat × Nat) : Nat :=
  pl022_calc_freq clk_hz p.1 p.2

/-- A stage-1 scan that left its loops at a visited pair. -/
def Stopped (clk_hz speed_hz : Nat) (r : Scan) : Prop :=
  r.exit ≠ Exit.exhausted ∧ SSP_CPSDVR_MIN ≤ r.cpsdvr ∧ r.cpsdvr < SSP_CPSDVR_MAX ∧
    r.scr < SSP_SCR_MAX ∧ r.freq = pl022_calc_freq clk_hz r.cpsdvr r.scr ∧ r.freq ≤ speed_hz ∧
    (r.exit = Exit.done ↔ r.freq = speed_hz)

/-- Every pair the loops visit in rows `b ≤ scr < e` lies above `speed_hz`. -/
def RowsAbove (clk_hz speed_hz b e : Nat) : Prop :=
  ∀ s c, b ≤ s → s < e → SSP_CPSDVR_MIN ≤ c → c < SSP_CPSDVR_MAX →
    speed_hz < pl022_calc_freq clk_hz c s

/-- Every pair the loops visit in columns `b ≤ cpsdvr < e` lies above `speed_hz`. -/
def ColsAbove (clk_hz speed_hz b e : Nat) : Prop :=
  ∀ c s, b ≤ c → c < e → s < SSP_SCR_MAX → speed_hz < pl022_calc_freq clk_hz c s

/-! ## Vocabulary for the contract of the clock divisor solver -/

/-- `s1` is the row in which stage 1 stops: the least `scr` in `[0,254]` for which some visited
prescale reaches `speed_hz`, that is, with `clk_hz / (253 * (1 + s1)) ≤ speed_hz`. -/
def first_row (clk_hz speed_hz s1 : Nat) : Prop :=
  s1 ≤ 254 ∧ clk_hz / (253 * (1 + s1)) ≤ speed_hz ∧
    (s1 = 0 ∨ speed_hz < clk_hz / (253 * s1))

/-- `p2` is the column in which stage 2 stops: the least prescale in `[2,253]` for which some
visited `scr` reaches `speed_hz`, that is, with `clk_hz / (p2 * 255) ≤ speed_hz`. -/
def first_col (clk_hz speed_hz p2 : Nat) : Prop :=
  2 ≤ p2 ∧ p2 ≤ 253 ∧ clk_hz / (p2 * 255) ≤ speed_hz ∧
    (p2 = 2 ∨ speed_hz < clk_hz / ((p2 - 1) * 255))

/-- The frequency of the returned pair is closest to `speed_hz` from below among the pairs
`(p, s)` of the register ranges `[2,254] × [0,255]` that `admitted` selects: none of them yields
a frequency that is `≤ speed_hz` and strictly greater. -/
def closest_among (clk_hz speed_hz : Nat) (admitted : Nat → Nat → Prop) : Prop :=
  ∀ p s, 2 ≤ p → p ≤ 254 → s ≤ 255 → admitted p s →
    ¬ (pl022_calc_freq clk_hz p s ≤ speed_hz ∧
       pair_freq clk_hz (pl022_calc_clk_divisors clk_hz speed_hz) < pl022_calc_freq clk_hz p s)

/-! ## Register map, bit masks, external primitives -/

def SSPCR0 : Nat := 0x000
def SSPCR1 : Nat := 0x004
def SSPDR : Nat := 0x008
def SSPSR : Nat := 0x00C
def SSPCPSR : Nat := 0x010
def SSPIMSC : Nat := 0x014
def SSPB2BTRANS : Nat := 0x030
def SSPPeriphID0 : Nat := 0xFE0
def SSPPeriphID1 : Nat := 0xFE4
def SSPPeriphID2 : Nat := 0xFE8
def SSPPeriphID3 : Nat := 0xFEC
def SSPPCellID0 : Nat := 0xFF0
def SSPPCellID1 : Nat := 0xFF4
def SSPPCellID2 : Nat := 0xFF8
def SSPPCellID3 : Nat := 0xFFC

/-- Modelled from the spec: the macro `SHIFT_U32` of `util.h`, which is not among the sources;
a left shift in 32 bits, the reading under which the value comments of the source
(`PL022_SPI_MODE1 ... /* 0x80 */`) hold. -/
def SHIFT_U32 (v shift : Nat) : Nat := (v <<< shift) % 2 ^ 32

def SSPCR0_SPH1 : Nat := SHIFT_U32 1 7
def SSPCR0_SPH0 : Nat := SHIFT_U32 0 7
def SSPCR0_SPO1 : Nat := SHIFT_U32 1 6
def SSPCR0_SPO0 : Nat := SHIFT_U32 0 6
def SSPCR0_FRF_SPI : Nat := SHIFT_U32 0 4
def SSPCR0_DSS_16BIT : Nat := SHIFT_U32 0xF 0
def SSPCR0_DSS_8BIT : Nat := SHIFT_U32 7 0

def SSPCR1_SOD_DISABLE : Nat := SHIFT_U32 0 3
def SSPCR1_MS_MASTER : Nat := SHIFT_U32 0 2
def SSPCR1_SSE : Nat := SHIFT_U32 1 1
def SSPCR1_SSE_ENABLE : Nat := SHIFT_U32 1 1
def SSPCR1_SSE_DISABLE : Nat := SHIFT_U32 0 1
def SSPCR1_LBM_YES : Nat := SHIFT_U32 1 0
def SSPCR1_LBM_NO : Nat := SHIFT_U32 0 0

def SSPSR_BSY : Nat := SHIFT_U32 1 4
def SSPSR_RNE : Nat := SHIFT_U32 1 2
def SSPSR_TNF : Nat := SHIFT_U32 1 1

def SSPCPSR_CPSDVR : Nat := SHIFT_U32 0xFF 0

def MASK_16 : Nat := 0xFFFF
def MASK_4 : Nat := 0xF

def PL022_DATA_SIZE8 : Nat := SSPCR0_DSS_8BIT
def PL022_DATA_SIZE16 : Nat := SSPCR0_DSS_16BIT

def PL022_SPI_MODE0 : Nat := SSPCR0_SPO0 ||| SSPCR0_SPH0
def PL022_SPI_MODE1 : Nat := SSPCR0_SPO0 ||| SSPCR0_SPH1
def PL022_SPI_MODE2 : Nat := SSPCR0_SPO1 ||| SSPCR0_SPH0
def PL022_SPI_MODE3 : Nat := SSPCR0_SPO1 ||| SSPCR0_SPH1

/-- Modelled from the spec: `enum spi_mode` of `spi.h`, which is not among the sources; the four
modes are numbered 0 to 3. -/
def SPI_MODE0 : Nat := 0

/-- Modelled from the spec: second member of `enum spi_mode` (`spi.h`). -/
def SPI_MODE1 : Nat := 1

/-- Modelled from the spec: third member of `enum spi_mode` (`spi.h`). -/
def SPI_MODE2 : Nat := 2

/-- Modelled from the spec: fourth member of `enum spi_mode` (`spi.h`). -/
def SPI_MODE3 : Nat := 3

/-- Modelled from the spec: the direction argument of the GPIO primitive (`gpio.h` is not among
the sources). -/
inductive GpioDir where
  | GPIO_DIR_OUT
  | GPIO_DIR_IN
  deriving DecidableEq, Repr

/-- Modelled from the spec: the level argument of the GPIO primitive (`gpio.h` is not among the
sources). -/
inductive GpioLevel where
  | GPIO_LEVEL_LOW
  | GPIO_LEVEL_HIGH
  deriving DecidableEq, Repr

/-- One access of the driver to the outside world, as an instrumented register mock records
it: a register read or write of `width` bits at an address, or a call of a GPIO primitive. -/
inductive Access where
  | read (width addr val : Nat)
  | write (width addr val : Nat)
  | gpio_set_direction (pin : Nat) (dir : GpioDir)
  | gpio_set_value (pin : Nat) (level : GpioLevel)
  deriving DecidableEq, Repr

/-- The peripheral and its surroundings as a state machine over `σ`: what a register read
returns, and how reads, writes and GPIO calls change the state. -/
structure Device (σ : Type) where
  read : Nat → Nat → σ → Nat × σ
  write : Nat → Nat → Nat → σ → σ
  gpio_direction : Nat → GpioDir → σ → σ
  gpio_value : Nat → GpioLevel → σ → σ

/-- The world the driver runs in: the device state and the accesses made so far, oldest
first. -/
structure World (σ : Type) where
  dev : σ
  trace : List Access

/-- Modelled from the spec: the register read primitives `read8`, `read16`, `read32` of `io.h`
(not among the sources): a load of `w` bits, whose value is below `2 ^ w`. -/
def mmio_read {σ : Type} (D : Device σ) (w addr : Nat) (s : World σ) : Nat × World σ :=
  let r := D.read w addr s.dev
  (r.1 % 2 ^ w, ⟨r.2, s.trace ++ [Access.read w addr (r.1 % 2 ^ w)]⟩)

/-- Modelled from the spec: the register write primitives `write8`, `write16` of `io.h` (not
among the sources): a store of the low `w` bits of `val`. -/
def mmio_write {σ : Type} (D : Device σ) (w val addr : Nat) (s : World σ) : World σ :=
  ⟨D.write w addr (val % 2 ^ w) s.dev, s.trace ++ [Access.write w addr (val % 2 ^ w)]⟩

def read8 {σ : Type} (D : Device σ) (addr : Nat) (s : World σ) : Nat × World σ :=
  mmio_read D 8 addr s

def read16 {σ : Type} (D : Device σ) (addr : Nat) (s : World σ) : Nat × World σ :=
  mmio_read D 16 addr s

def read32 {σ : Type} (D : Device σ) (addr : Nat) (s : World σ) : Nat × World σ :=
  mmio_read D 32 addr s

def write8 {σ : Type} (D : Device σ) (val addr : Nat) (s : World σ) : World σ :=
  mmio_write D 8 val addr s

def write16 {σ : Type} (D : Device σ) (val addr : Nat) (s : World σ) : World σ :=
  mmio_write D 16 val addr s

/-- Modelled from the spec: the value a read-modify-write of `io.h` stores,
`(current & ~mask) | (val & mask)`, with `val` and `mask` narrowed to `w` bits. -/
def masked (w cur val mask : Nat) : Nat :=
  (cur &&& ((2 ^ w - 1) ^^^ (mask % 2 ^ w))) ||| ((val % 2 ^ w) &&& (mask % 2 ^ w))

/-- Modelled from the spec: the read-modify-write helpers `io_mask8` (`w = 8`) and `io_mask16`
(`w = 16`) of `io.h` (not among the sources), called as `io_maskN(addr, val, mask)`: they read
the register and store `(current & ~mask) | (val & mask)`. -/
def io_mask {σ : Type} (D : Device σ) (w addr val mask : Nat) (s : World σ) : World σ :=
  let r := mmio_read D w addr s
  mmio_write D w (masked w r.1 val mask) addr r.2

def io_mask8 {σ : Type} (D : Device σ) (addr val mask : Nat) (s : World σ) : World σ :=
  io_mask D 8 addr val mask s

def io_mask16 {σ : Type} (D : Device σ) (addr val mask : Nat) (s : World σ) : World σ :=
  io_mask D 16 addr val mask s

/-- Modelled from the spec: the GPIO primitive `gpio_set_direction` (external). -/
def gpio_set_direction {σ : Type} (D : Device σ) (pin : Nat) (dir : GpioDir) (s : World σ) :
    World σ :=
  ⟨D.gpio_direction pin dir s.dev, s.trace ++ [Access.gpio_set_direction pin dir]⟩

/-- Modelled from the spec: the GPIO primitive `gpio_set_value` (external). -/
def gpio_set_value {σ : Type} (D : Device σ) (pin : Nat) (level : GpioLevel) (s : World σ) :
    World σ :=
  ⟨D.gpio_value pin level s.dev, s.trace ++ [Access.gpio_set_value pin level]⟩

/-- Modelled from the spec: `struct pl022_data` of `drivers/pl022_spi.h` (not among the
sources), with the fields the driver reads.  The member `chip.ops` is written by
`pl022_configure` itself before it is checked and is left out. -/
structure pl022_data where
  base : Nat
  cs_gpio_base : Nat
  cs_gpio_pin : Nat
  clk_hz : Nat
  speed_hz : Nat
  mode : Nat
  data_size_bits : Nat
  loopback : Bool
  deriving Repr

/-- Build settings the source depends on: `NDEBUG` (then `assert` expands to nothing), whether
`DMSG` is compiled in (its arguments are evaluated only then), and `PLATFORM_hikey`. -/
structure Build where
  ndebug : Bool
  dmsg : Bool
  hikey : Bool
  deriving Repr

/-- Why `pl022_configure` did not return: a failed `assert` (numbered in source order) or a
call of `panic()`. -/
inductive Fatal where
  | assert_failed (n : Nat)
  | panic
  deriving DecidableEq, Repr

/-! ## Transfer engine -/

/-- The fill loop shared by `pl022_tx8`, `pl022_tx16`, `pl022_txrx8`, `pl022_txrx16`:
`while (i < num_txpkts) { if (read8(SSPSR) & SSPSR_TNF) writeW(wdat[i++], SSPDR); }`.
`none` when the polling budget `fuel` runs out. -/
def tx_fill {σ : Type} (D : Device σ) (w : Nat) (pd : pl022_data) (wdat : Nat → Nat)
    (num_txpkts : Nat) : Nat → Nat → World σ → Option (World σ)
  | 0, _, _ => none
  | fuel + 1, i, s =>
    if i < num_txpkts then
      let r := read8 D (pd.base + SSPSR) s
      if r.1 &&& SSPSR_TNF ≠ 0 then
        tx_fill D w pd wdat num_txpkts fuel (i + 1) (mmio_write D w (wdat i) (pd.base + SSPDR) r.2)
      else tx_fill D w pd wdat num_txpkts fuel i r.2
    else some s

/-- The inner receive loop shared by the `rx` and `txrx` functions:
`while ((read8(SSPSR) & SSPSR_RNE) && (j < *num_rxpkts)) rdat[j++] = readW(SSPDR);`.
Returns `j`, the buffer and the world. -/
def rx_inner {σ : Type} (D : Device σ) (w : Nat) (pd : pl022_data) (num_rxpkts : Nat) :
    Nat → Nat → (Nat → Nat) → World σ → Option (Nat × (Nat → Nat) × World σ)
  | 0, _, _, _ => none
  | fuel + 1, j, rdat, s =>
    let r := read8 D (pd.base + SSPSR) s
    if r.1 &&& SSPSR_RNE ≠ 0 ∧ j < num_rxpkts then
      let d := mmio_read D w (pd.base + SSPDR) r.2
      rx_inner D w pd num_rxpkts fuel (j + 1) (Function.update rdat j d.1) d.2
    else some (j, rdat, r.2)

/-- The receive loop shared by the `rx` and `txrx` functions:
`do { <inner loop> } while ((read8(SSPSR) & SSPSR_BSY) && (j < *num_rxpkts));`. -/
def rx_drain {σ : Type} (D : Device σ) (w : Nat) (pd : pl022_data) (num_rxpkts : Nat) :
    Nat → Nat → (Nat → Nat) → World σ → Option (Nat × (Nat → Nat) × World σ)
  | 0, _, _, _ => none
  | fuel + 1, j, rdat, s =>
    match rx_inner D w pd num_rxpkts fuel j rdat s with
    | none => none
    | some (j1, rdat1, s1) =>
      let r := read8 D (pd.base + SSPSR) s1
      if r.1 &&& SSPSR_BSY ≠ 0 ∧ j1 < num_rxpkts then
        rx_drain D w pd num_rxpkts fuel j1 rdat1 r.2
      else some (j1, rdat1, r.2)

/-- The functions `pl022_txrx8` (`w = 8`) and `pl022_txrx16` (`w = 16`), which differ only in
the width of the data-register accesses.  Returns the new `*num_rxpkts`, the receive buffer and
the world. -/
def pl022_txrx {σ : Type} (D : Device σ) (w : Nat) (pd : pl022_data) (wdat rdat : Nat → Nat)
    (num_txpkts num_rxpkts fuel : Nat) (s : World σ) : Option (Nat × (Nat → Nat) × World σ) :=
  let s1 := gpio_set_value D pd.cs_gpio_pin GpioLevel.GPIO_LEVEL_LOW s
  match tx_fill D w pd wdat num_txpkts fuel 0 s1 with
  | none => none
  | some s2 =>
    match rx_drain D w pd num_rxpkts fuel 0 rdat s2 with
    | none => none
    | some (j, rdat1, s3) =>
      some (j, rdat1, gpio_set_value D pd.cs_gpio_pin GpioLevel.GPIO_LEVEL_HIGH s3)

def pl022_txrx8 {σ : Type} (D : Device σ) (pd : pl022_data) (wdat rdat : Nat → Nat)
    (num_txpkts num_rxpkts fuel : Nat) (s : World σ) : Option (Nat × (Nat → Nat) × World σ) :=
  pl022_txrx D 8 pd wdat rdat num_txpkts num_rxpkts fuel s

def pl022_txrx16 {σ : Type} (D : Device σ) (pd : pl022_data) (wdat rdat : Nat → Nat)
    (num_txpkts num_rxpkts fuel : Nat) (s : World σ) : Option (Nat × (Nat → Nat) × World σ) :=
  pl022_txrx D 16 pd wdat rdat num_txpkts num_rxpkts fuel s

/-- The functions `pl022_tx8` (`w = 8`) and `pl022_tx16` (`w = 16`). -/
def pl022_tx {σ : Type} (D : Device σ) (w : Nat) (pd : pl022_data) (wdat : Nat → Nat)
    (num_txpkts fuel : Nat) (s : World σ) : Option (World σ) :=
  let s1 := gpio_set_value D pd.cs_gpio_pin GpioLevel.GPIO_LEVEL_LOW s
  match tx_fill D w pd wdat num_txpkts fuel 0 s1 with
  | none => none
  | some s2 => some (gpio_set_value D pd.cs_gpio_pin GpioLevel.GPIO_LEVEL_HIGH s2)

def pl022_tx8 {σ : Type} (D : Device σ) (pd : pl022_data) (wdat : Nat → Nat)
    (num_txpkts fuel : Nat) (s : World σ) : Option (World σ) :=
  pl022_tx D 8 pd wdat num_txpkts fuel s

def pl022_tx16 {σ : Type} (D : Device σ) (pd : pl022_data) (wdat : Nat → Nat)
    (num_txpkts fuel : Nat) (s : World σ) : Option (World σ) :=
  pl022_tx D 16 pd wdat num_txpkts fuel s

/-- The functions `pl022_rx8` (`w = 8`) and `pl022_rx16` (`w = 16`).  Returns the new
`*num_rxpkts`, the receive buffer and the world. -/
def pl022_rx {σ : Type} (D : Device σ) (w : Nat) (pd : pl022_data) (rdat : Nat → Nat)
    (num_rxpkts fuel : Nat) (s : World σ) : Option (Nat × (Nat → Nat) × World σ) :=
  let s1 := gpio_set_value D pd.cs_gpio_pin GpioLevel.GPIO_LEVEL_LOW s
  match rx_drain D w pd num_rxpkts fuel 0 rdat s1 with
  | none => none
  | some (j, rdat1, s2) =>
    some (j, rdat1, gpio_set_value D pd.cs_gpio_pin GpioLevel.GPIO_LEVEL_HIGH s2)

def pl022_rx8 {σ : Type} (D : Device σ) (pd : pl022_data) (rdat : Nat → Nat)
    (num_rxpkts fuel : Nat) (s : World σ) : Option (Nat × (Nat → Nat) × World σ) :=
  pl022_rx D 8 pd rdat num_rxpkts fuel s

def pl022_rx16 {σ : Type} (D : Device σ) (pd : pl022_data) (rdat : Nat → Nat)
    (num_rxpkts fuel : Nat) (s : World σ) : Option (Nat × (Nat → Nat) × World σ) :=
  pl022_rx D 16 pd rdat num_rxpkts fuel s

/-! ## Configuration and lifecycle -/

/-- The first `assert` of `pl022_sanity_check` that fails, numbered in source order.  The first
two, `assert(pd)` and `assert(pd->chip.ops)`, hold for every instance: the instance exists and
`chip.ops` has just been set to `&pl022_ops`. -/
def failed_assert (pd : pl022_data) : Option Nat :=
  if pd.base = 0 then some 3
  else if pd.cs_gpio_base = 0 then some 4
  else if pd.clk_hz = 0 then some 5
  else if ¬ (pd.speed_hz ≠ 0 ∧ pd.speed_hz ≤ pd.clk_hz / 2) then some 6
  else if ¬ (pd.mode ≤ SPI_MODE3) then some 7
  else if ¬ (pd.data_size_bits = 8 ∨ pd.data_size_bits = 16) then some 8
  else none

/-- Register reads that occur as arguments of a `DMSG` call; they are performed only when
`DMSG` is compiled in. -/
def dmsg_reads {σ : Type} (D : Device σ) (b : Build) (addrs : List Nat) (s : World σ) :
    World σ :=
  if b.dmsg then addrs.foldl (fun t a => (read32 D a t).2) s else s

/-- `pl022_print_peri_id`. -/
def pl022_print_peri_id {σ : Type} (D : Device σ) (b : Build) (pd : pl022_data)
    (s : World σ) : World σ :=
  dmsg_reads D b [pd.base + SSPPeriphID0, pd.base + SSPPeriphID1, pd.base + SSPPeriphID2,
    pd.base + SSPPeriphID3] s

/-- `pl022_print_cell_id`. -/
def pl022_print_cell_id {σ : Type} (D : Device σ) (b : Build) (pd : pl022_data)
    (s : World σ) : World σ :=
  dmsg_reads D b [pd.base + SSPPCellID0, pd.base + SSPPCellID1, pd.base + SSPPCellID2,
    pd.base + SSPPCellID3] s

/-- `pl022_sanity_check`: the asserts (fatal unless `NDEBUG`), then the diagnostic prints. -/
def pl022_sanity_check {σ : Type} (D : Device σ) (b : Build) (pd : pl022_data) (s : World σ) :
    Except Fatal (World σ) :=
  match (if b.ndebug then none else failed_assert pd) with
  | some n => Except.error (Fatal.assert_failed n)
  | none =>
    let s1 := if b.hikey then dmsg_reads D b [pd.base + SSPB2BTRANS] s else s
    Except.ok (pl022_print_cell_id D b pd (pl022_print_peri_id D b pd s1))

/-- First `switch` of `pl022_configure`: the mode bits, `none` for the `default` branch. -/
def mode_bits (mode : Nat) : Option Nat :=
  if mode = SPI_MODE0 then some PL022_SPI_MODE0
  else if mode = SPI_MODE1 then some PL022_SPI_MODE1
  else if mode = SPI_MODE2 then some PL022_SPI_MODE2
  else if mode = SPI_MODE3 then some PL022_SPI_MODE3
  else none

/-- Second `switch` of `pl022_configure`: the data-size code, `none` for the `default`
branch. -/
def data_size_code (data_size_bits : Nat) : Option Nat :=
  if data_size_bits = 8 then some PL022_DATA_SIZE8
  else if data_size_bits = 16 then some PL022_DATA_SIZE16
  else none

/-- `pl022_configure`. -/
def pl022_configure {σ : Type} (D : Device σ) (b : Build) (pd : pl022_data) (s : World σ) :
    Except Fatal (World σ) :=
  match pl022_sanity_check D b pd s with
  | Except.error e => Except.error e
  | Except.ok s1 =>
    let div := pl022_calc_clk_divisors pd.clk_hz pd.speed_hz
    match mode_bits pd.mode with
    | none => Except.error Fatal.panic
    | some mode =>
      match data_size_code pd.data_size_bits with
      | none => Except.error Fatal.panic
      | some data_size =>
        let lbm := if pd.loopback then SSPCR1_LBM_YES else SSPCR1_LBM_NO
        let s2 := io_mask16 D (pd.base + SSPCR0)
          (SHIFT_U32 div.2 8 ||| mode ||| SSPCR0_FRF_SPI ||| data_size) MASK_16 s1
        let s3 := io_mask8 D (pd.base + SSPCR1)
          (SSPCR1_SOD_DISABLE ||| SSPCR1_MS_MASTER ||| SSPCR1_SSE_DISABLE ||| lbm) MASK_4 s2
        let s4 := io_mask8 D (pd.base + SSPCPSR) div.1 SSPCPSR_CPSDVR s3
        let s5 := io_mask8 D (pd.base + SSPIMSC) 0 MASK_4 s4
        let s6 := gpio_set_direction D pd.cs_gpio_pin GpioDir.GPIO_DIR_OUT s5
        Except.ok (gpio_set_value D pd.cs_gpio_pin GpioLevel.GPIO_LEVEL_HIGH s6)

/-- Inner loop of `pl022_flush_fifo`:
`while (read32(SSPSR) & SSPSR_RNE) { rdat = read32(SSPDR); }`. -/
def flush_inner {σ : Type} (D : Device σ) (pd : pl022_data) : Nat → World σ → Option (World σ)
  | 0, _ => none
  | fuel + 1, s =>
    let r := read32 D (pd.base + SSPSR) s
    if r.1 &&& SSPSR_RNE ≠ 0 then
      flush_inner D pd fuel (read32 D (pd.base + SSPDR) r.2).2
    else some r.2

/-- `pl022_flush_fifo`: `do { <inner loop> } while (read32(SSPSR) & SSPSR_BSY);`. -/
def pl022_flush_fifo {σ : Type} (D : Device σ) (pd : pl022_data) :
    Nat → World σ → Option (World σ)
  | 0, _ => none
  | fuel + 1, s =>
    match flush_inner D pd fuel s with
    | none => none
    | some s1 =>
      let r := read32 D (pd.base + SSPSR) s1
      if r.1 &&& SSPSR_BSY ≠ 0 then pl022_flush_fifo D pd fuel r.2 else some r.2

/-- `pl022_start`. -/
def pl022_start {σ : Type} (D : Device σ) (pd : pl022_data) (fuel : Nat) (s : World σ) :
    Option (World σ) :=
  match pl022_flush_fifo D pd fuel s with
  | none => none
  | some s1 => some (io_mask8 D (pd.base + SSPCR1) SSPCR1_SSE_ENABLE SSPCR1_SSE s1)

/-- `pl022_end`. -/
def pl022_end {σ : Type} (D : Device σ) (pd : pl022_data) (s : World σ) : World σ :=
  io_mask8 D (pd.base + SSPCR1) SSPCR1_SSE_DISABLE SSPCR1_SSE s

/-! ## Vocabulary for access traces -/

/-- Values written to the data register, in trace order. -/
def data_writes (base : Nat) : List Access → List Nat
  | [] => []
  | Access.write _ addr v :: t =>
    if addr = base + SSPDR then v :: data_writes base t else data_writes base t
  | _ :: t => data_writes base t

/-- Values read from the data register, in trace order. -/
def data_reads (base : Nat) : List Access → List Nat
  | [] => []
  | Access.read _ addr v :: t =>
    if addr = base + SSPDR then v :: data_reads base t else data_reads base t
  | _ :: t => data_reads base t

/-- The access is a read of the status register. -/
def is_status_read (base : Nat) : Access → Bool
  | Access.read _ addr _ => decide (addr = base + SSPSR)
  | _ => false

/-- The access is a read of the data register. -/
def is_data_read (base : Nat) : Access → Bool
  | Access.read _ addr _ => decide (addr = base + SSPDR)
  | _ => false

/-- The access is a write of the data register. -/
def is_data_write (base : Nat) : Access → Bool
  | Access.write _ addr _ => decide (addr = base + SSPDR)
  | _ => false

/-- The access is a read of a register. -/
def is_read : Access → Bool
  | Access.read _ _ _ => true
  | _ => false

/-- What the receive loops leave in the trace: status reads and data-register reads only, one
data-register read for each element counted. -/
def RxTrace (base j j1 num_rxpkts : Nat) (mid : List Access) : Prop :=
  (∀ a ∈ mid, is_status_read base a = true ∨ is_data_read base a = true) ∧
  j1 = j + (data_reads base mid).length ∧ (j ≤ num_rxpkts → j1 ≤ num_rxpkts)

/-- Shape of the trace of the fill loop from element `i` on: status reads with the not-full bit
clear are skipped; each data-register write carries the next buffer element (narrowed to `w`
bits) and comes directly after a status read with the not-full bit set; the trace ends when
`num_txpkts` elements are written. -/
inductive FillTrace (w base : Nat) (wdat : Nat → Nat) (num_txpkts : Nat) :
    Nat → List Access → Prop where
  | finished (i : Nat) (h : ¬ i < num_txpkts) : FillTrace w base wdat num_txpkts i []
  | wait (i v : Nat) (t : List Access) (hi : i < num_txpkts) (hv : v &&& SSPSR_TNF = 0)
      (ht : FillTrace w base wdat num_txpkts i t) :
      FillTrace w base wdat num_txpkts i (Access.read 8 (base + SSPSR) v :: t)
  | send (i v : Nat) (t : List Access) (hi : i < num_txpkts) (hv : v &&& SSPSR_TNF ≠ 0)
      (ht : FillTrace w base wdat num_txpkts (i + 1) t) :
      FillTrace w base wdat num_txpkts i
        (Access.read 8 (base + SSPSR) v :: Access.write w (base + SSPDR) (wdat i % 2 ^ w) :: t)

/-- Device state after `k` reads of the status register. -/
def status_poll {σ : Type} (D : Device σ) (pd : pl022_data) : Nat → σ → σ
  | 0, d => d
  | k + 1, d => status_poll D pd k (D.read 8 (pd.base + SSPSR) d).2

/-- A status read in device state `d` shows the transmit-FIFO-not-full bit set. -/
def tnf_set {σ : Type} (D : Device σ) (pd : pl022_data) (d : σ) : Prop :=
  ((D.read 8 (pd.base + SSPSR) d).1 % 2 ^ 8) &&& SSPSR_TNF ≠ 0

instance tnf_set_decidable {σ : Type} (D : Device σ) (pd : pl022_data) (d : σ) :
    Decidable (tnf_set D pd d) := by
  unfold tnf_set
  infer_instance

/-- The transmit-FIFO-not-full bit is eventually observed set for each of the `r` elements still
to be sent, from element `i` and device state `d` on: polling the status register sees the bit
set at the `k`-th repetition, the element is written, and so on for the next element. -/
def TxLive {σ : Type} (D : Device σ) (w : Nat) (pd : pl022_data) (wdat : Nat → Nat) :
    Nat → Nat → σ → Prop
  | 0, _, _ => True
  | r + 1, i, d =>
    ∃ k, (∀ j, j < k → ¬ tnf_set D pd (status_poll D pd j d)) ∧
      tnf_set D pd (status_poll D pd k d) ∧
      TxLive D w pd wdat r (i + 1)
        (D.write w (pd.base + SSPDR) (wdat i % 2 ^ w) (status_poll D pd (k + 1) d))

/-! ## A register mock with a pre-seeded receive FIFO -/

/-- State of the mock: the elements waiting in the receive FIFO, oldest first, and the contents
of the ordinary registers. -/
structure Mock where
  rxfifo : List Nat
  regs : Nat → Nat

/-- What the mock reports in the status register: receive-FIFO-not-empty exactly while elements
remain, busy only while elements remain (and then as `bsy_data` says), the other three flags as
configured. -/
def mock_status (tfe tnf rff bsy_data : Bool) (m : Mock) : Nat :=
  (if tfe then 1 else 0) + (if tnf then 2 else 0) + (if m.rxfifo = [] then 0 else 4)
    + (if rff then 8 else 0) + (if m.rxfifo ≠ [] ∧ bsy_data = true then 16 else 0)

/-- The mock peripheral at `base`: a status read reports `mock_status`, a data-register read
pops the receive FIFO, every other register behaves as memory; data written to the data
register is dropped and GPIO calls do not affect it. -/
def mock_device (base : Nat) (tfe tnf rff bsy_data : Bool) : Device Mock :=
  ⟨fun _ addr m =>
      if addr = base + SSPSR then (mock_status tfe tnf rff bsy_data m, m)
      else if addr = base + SSPDR then (m.rxfifo.headD 0, ⟨m.rxfifo.tail, m.regs⟩)
      else (m.regs addr, m),
    fun _ addr v m =>
      if addr = base + SSPSR ∨ addr = base + SSPDR then m
      else ⟨m.rxfifo, Function.update m.regs addr v⟩,
    fun _ _ m => m,
    fun _ _ m => m⟩

/-- Trace of draining the stale elements `xs` from the mock with 32-bit accesses: for each
element a status read (not-empty set) and a data-register read returning it. -/
def stale_reads (base : Nat) (tfe tnf rff bsy_data : Bool) (regs : Nat → Nat) :
    List Nat → List Access
  | [] => []
  | x :: xs =>
    Access.read 32 (base + SSPSR) (mock_status tfe tnf rff bsy_data ⟨x :: xs, regs⟩)
      :: Access.read 32 (base + SSPDR) (x % 2 ^ 32)
      :: stale_reads base tfe tnf rff bsy_data regs xs

/-! ## The contract's tables for the frame-format register -/

/-- The mode bits the contract names for modes 0, 1, 2, 3: `0x00`, `0x80`, `0x40`, `0xC0`. -/
def spec_mode_bits (mode : Nat) : Nat :=
  if mode = 0 then 0x00 else if mode = 1 then 0x80 else if mode = 2 then 0x40 else 0xC0

/-- The data-size field the contract names: `0x7` for 8-bit and `0xF` for 16-bit data. -/
def spec_dss (data_size_bits : Nat) : Nat :=
  if data_size_bits = 8 then 0x7 else 0xF

/-- The instance passes every check of `pl022_sanity_check`. -/
def valid_instance (pd : pl022_data) : Prop :=
  pd.base ≠ 0 ∧ pd.cs_gpio_base ≠ 0 ∧ pd.clk_hz ≠ 0 ∧ 0 < pd.speed_hz ∧
    pd.speed_hz ≤ pd.clk_hz / 2 ∧ pd.mode ≤ 3 ∧
    (pd.data_size_bits = 8 ∨ pd.data_size_bits = 16)

/-- The error with which a run halted, if it did. -/
def fatal_of {α : Type} : Except Fatal α → Option Fatal
  | Except.error e => some e
  | Except.ok _ => none

/-! ## Concrete instances used in examples -/

/-- An instance with every field set as for a 1 MHz, mode-0, 8-bit device on a 50 MHz clock,
except that the chip-select GPIO base is left unset (zero). -/
def instance_without_cs_base : pl022_data :=
  ⟨0x1000, 0, 5, 50000000, 1000000, 0, 8, false⟩

/-! ## Facts about the search loops -/

theorem pl022_calc_freq_anti (clk_hz p s q t : Nat) (hp : 0 < p) (h : p * (1 + s) ≤ q * (1 + t)) :
    pl022_calc_freq clk_hz q t ≤ pl022_calc_freq clk_hz p s := by
  unfold pl022_calc_freq
  exact Nat.div_le_div_left h (Nat.mul_pos hp (by omega))

/-- Result of the stage-1 inner loop entered at `a`: either every prescale from `a` on gives a
frequency above `speed_hz` and the loop ends with the counter at the bound, or it stops at the
first prescale whose frequency does not exceed `speed_hz`. -/
theorem stage1_inner_spec (clk_hz speed_hz scr : Nat) :
    ∀ (n a f0 : Nat), SSP_CPSDVR_MAX - a = n → a ≤ SSP_CPSDVR_MAX →
      ((stage1_inner clk_hz speed_hz scr a f0).exit = Exit.exhausted ∧
        (stage1_inner clk_hz speed_hz scr a f0).cpsdvr = SSP_CPSDVR_MAX ∧
        (stage1_inner clk_hz speed_hz scr a f0).scr = scr ∧
        (∀ c, a ≤ c → c < SSP_CPSDVR_MAX → speed_hz < pl022_calc_freq clk_hz c scr) ∧
        (a < SSP_CPSDVR_MAX →
          (stage1_inner clk_hz speed_hz scr a f0).freq
            = pl022_calc_freq clk_hz (SSP_CPSDVR_MAX - 1) scr) ∧
        (a = SSP_CPSDVR_MAX → (stage1_inner clk_hz speed_hz scr a f0).freq = f0))
      ∨ ((stage1_inner clk_hz speed_hz scr a f0).exit ≠ Exit.exhausted ∧
        a ≤ (stage1_inner clk_hz speed_hz scr a f0).cpsdvr ∧
        (stage1_inner clk_hz speed_hz scr a f0).cpsdvr < SSP_CPSDVR_MAX ∧
        (stage1_inner clk_hz speed_hz scr a f0).scr = scr ∧
        (stage1_inner clk_hz speed_hz scr a f0).freq
          = pl022_calc_freq clk_hz (stage1_inner clk_hz speed_hz scr a f0).cpsdvr scr ∧
        (stage1_inner clk_hz speed_hz scr a f0).freq ≤ speed_hz ∧
        ((stage1_inner clk_hz speed_hz scr a f0).exit = Exit.done ↔
          (stage1_inner clk_hz speed_hz scr a f0).freq = speed_hz) ∧
        (∀ c, a ≤ c → c < (stage1_inner clk_hz speed_hz scr a f0).cpsdvr →
          speed_hz < pl022_calc_freq clk_hz c scr)) := by
  intro n
  induction n with
  | zero =>
    intro a f0 hn ha
    have : a = SSP_CPSDVR_MAX := by omega
    subst this
    left
    rw [stage1_inner]
    simp
    intro c h1 h2
    omega
  | succ n ih =>
    intro a f0 hn ha
    have hlt : a < SSP_CPSDVR_MAX := by omega
    rw [stage1_inner]
    simp only [hlt, dite_true]
    by_cases h1 : pl022_calc_freq clk_hz a scr = speed_hz
    · right
      rw [if_pos h1]
      exact ⟨by simp, le_refl _, hlt, rfl, rfl, le_of_eq h1, by simp [h1],
        fun c hc1 hc2 => absurd hc2 (Nat.not_lt.mpr hc1)⟩
    · by_cases h2 : pl022_calc_freq clk_hz a scr < speed_hz
      · right
        rw [if_neg h1, if_pos h2]
        exact ⟨by simp, le_refl _, hlt, rfl, rfl, le_of_lt h2,
          ⟨fun h => by simp at h, fun h => absurd h h1⟩,
          fun c hc1 hc2 => absurd hc2 (Nat.not_lt.mpr hc1)⟩
      · rw [if_neg h1, if_neg h2]
        have hgt : speed_hz < pl022_calc_freq clk_hz a scr := by omega
        rcases ih (a + 1) (pl022_calc_freq clk_hz a scr) (by omega) (by omega) with h | h
        · left
          obtain ⟨e1, e2, e3, e4, e5, e6⟩ := h
          refine ⟨e1, e2, e3, ?_, ?_, ?_⟩
          · intro c hc1 hc2
            by_cases hca : c = a
            · subst hca; exact hgt
            · exact e4 c (by omega) hc2
          · intro _
            by_cases ha1 : a + 1 < SSP_CPSDVR_MAX
            · exact e5 ha1
            · have : a + 1 = SSP_CPSDVR_MAX := by omega
              rw [e6 this]
              congr 1
              omega
          · intro h; omega
        · right
          obtain ⟨e1, e2, e3, e4, e5, e6, e7, e8⟩ := h
          refine ⟨e1, by omega, e3, e4, e5, e6, e7, ?_⟩
          intro c hc1 hc2
          by_cases hca : c = a
          · subst hca; exact hgt
          · exact e8 c (by omega) hc2


theorem stage1_outer_unfold (clk_hz speed_hz scr cpsdvr freq1 : Nat) (h : scr < SSP_SCR_MAX) :
    stage1_outer clk_hz speed_hz scr cpsdvr freq1 =
      match (stage1_inner clk_hz speed_hz scr SSP_CPSDVR_MIN freq1).exit with
      | Exit.exhausted => stage1_outer clk_hz speed_hz (scr + 1)
          (stage1_inner clk_hz speed_hz scr SSP_CPSDVR_MIN freq1).cpsdvr
          (stage1_inner clk_hz speed_hz scr SSP_CPSDVR_MIN freq1).freq
      | _ => stage1_inner clk_hz speed_hz scr SSP_CPSDVR_MIN freq1 := by
  rw [stage1_outer]
  simp only [h, dite_true]

theorem stage1_outer_stop (clk_hz speed_hz scr cpsdvr freq1 : Nat) (h : ¬ scr < SSP_SCR_MAX) :
    stage1_outer clk_hz speed_hz scr cpsdvr freq1 = ⟨Exit.exhausted, cpsdvr, scr, freq1⟩ := by
  rw [stage1_outer]
  simp only [h, dite_false]

theorem stage1_outer_spec (clk_hz speed_hz : Nat) :
    ∀ (n b c0 f0 : Nat), SSP_SCR_MAX - b = n → b ≤ SSP_SCR_MAX →
      ((stage1_outer clk_hz speed_hz b c0 f0).exit = Exit.exhausted ∧
        (stage1_outer clk_hz speed_hz b c0 f0).scr = SSP_SCR_MAX ∧
        RowsAbove clk_hz speed_hz b SSP_SCR_MAX ∧
        (b < SSP_SCR_MAX →
          (stage1_outer clk_hz speed_hz b c0 f0).cpsdvr = SSP_CPSDVR_MAX ∧
          (stage1_outer clk_hz speed_hz b c0 f0).freq
            = pl022_calc_freq clk_hz (SSP_CPSDVR_MAX - 1) (SSP_SCR_MAX - 1)) ∧
        (b = SSP_SCR_MAX →
          (stage1_outer clk_hz speed_hz b c0 f0).cpsdvr = c0 ∧
          (stage1_outer clk_hz speed_hz b c0 f0).freq = f0))
      ∨ (Stopped clk_hz speed_hz (stage1_outer clk_hz speed_hz b c0 f0) ∧
        b ≤ (stage1_outer clk_hz speed_hz b c0 f0).scr ∧
        RowsAbove clk_hz speed_hz b (stage1_outer clk_hz speed_hz b c0 f0).scr ∧
        (∀ c, SSP_CPSDVR_MIN ≤ c → c < (stage1_outer clk_hz speed_hz b c0 f0).cpsdvr →
          speed_hz < pl022_calc_freq clk_hz c (stage1_outer clk_hz speed_hz b c0 f0).scr)) := by
  intro n
  induction n with
  | zero =>
    intro b c0 f0 hn hb
    have hnot : ¬ b < SSP_SCR_MAX := by omega
    left
    rw [stage1_outer_stop _ _ _ _ _ hnot]
    refine ⟨rfl, by show b = SSP_SCR_MAX; omega, ?_, fun h => absurd h hnot, fun _ => ⟨rfl, rfl⟩⟩
    intro s c h1 h2
    omega
  | succ n ih =>
    intro b c0 f0 hn hb
    have hlt : b < SSP_SCR_MAX := by omega
    rw [stage1_outer_unfold _ _ _ _ _ hlt]
    rcases stage1_inner_spec clk_hz speed_hz b _ SSP_CPSDVR_MIN f0 rfl (by decide) with h | h
    · obtain ⟨e1, e2, e3, e4, e5, e6⟩ := h
      rw [e1]
      dsimp only
      have hrow : ∀ s c, s = b → SSP_CPSDVR_MIN ≤ c → c < SSP_CPSDVR_MAX →
          speed_hz < pl022_calc_freq clk_hz c s := by
        intro s c hs h1 h2
        subst hs
        exact e4 c h1 h2
      rcases ih (b + 1) _ _ (by omega) (by omega) with h | h
      · left
        obtain ⟨g1, g2, g3, g4, g5⟩ := h
        refine ⟨g1, g2, ?_, ?_, fun h => by omega⟩
        · intro s c h1 h2 h3 h4
          by_cases hsb : s = b
          · exact hrow s c hsb h3 h4
          · exact g3 s c (by omega) h2 h3 h4
        · intro _
          by_cases hb1 : b + 1 < SSP_SCR_MAX
          · exact g4 hb1
          · have hb2 : b + 1 = SSP_SCR_MAX := by omega
            obtain ⟨k1, k2⟩ := g5 hb2
            refine ⟨by rw [k1, e2], ?_⟩
            rw [k2, e5 (by decide)]
            congr 1
            omega
      · right
        obtain ⟨g1, g2, g3, g4⟩ := h
        refine ⟨g1, by omega, ?_, g4⟩
        intro s c h1 h2 h3 h4
        by_cases hsb : s = b
        · exact hrow s c hsb h3 h4
        · exact g3 s c (by omega) h2 h3 h4
    · obtain ⟨e1, e2, e3, e4, e5, e6, e7, e8⟩ := h
      have hres : (match (stage1_inner clk_hz speed_hz b SSP_CPSDVR_MIN f0).exit with
          | Exit.exhausted => stage1_outer clk_hz speed_hz (b + 1)
              (stage1_inner clk_hz speed_hz b SSP_CPSDVR_MIN f0).cpsdvr
              (stage1_inner clk_hz speed_hz b SSP_CPSDVR_MIN f0).freq
          | _ => stage1_inner clk_hz speed_hz b SSP_CPSDVR_MIN f0)
          = stage1_inner clk_hz speed_hz b SSP_CPSDVR_MIN f0 := by
        cases hE : (stage1_inner clk_hz speed_hz b SSP_CPSDVR_MIN f0).exit with
        | done => rfl
        | stage2 => rfl
        | exhausted => exact absurd hE e1
      rw [hres]
      right
      refine ⟨⟨e1, e2, e3, by rw [e4]; exact hlt, by rw [e4]; exact e5, e6, e7⟩,
        by rw [e4], ?_, ?_⟩
      · intro s c h1 h2
        rw [e4] at h2
        omega
      · intro c h1 h2
        rw [e4]
        exact e8 c h1 h2


theorem stage2_inner_spec (clk_hz speed_hz p : Nat) :
    ∀ (n b f0 : Nat), SSP_SCR_MAX - b = n → b ≤ SSP_SCR_MAX →
      ((stage2_inner clk_hz speed_hz p b f0).exit = Exit.exhausted ∧
        (stage2_inner clk_hz speed_hz p b f0).cpsdvr = p ∧
        (stage2_inner clk_hz speed_hz p b f0).scr = SSP_SCR_MAX ∧
        (∀ s, b ≤ s → s < SSP_SCR_MAX → speed_hz < pl022_calc_freq clk_hz p s) ∧
        (b < SSP_SCR_MAX →
          (stage2_inner clk_hz speed_hz p b f0).freq
            = pl022_calc_freq clk_hz p (SSP_SCR_MAX - 1)) ∧
        (b = SSP_SCR_MAX → (stage2_inner clk_hz speed_hz p b f0).freq = f0))
      ∨ ((stage2_inner clk_hz speed_hz p b f0).exit = Exit.done ∧
        (stage2_inner clk_hz speed_hz p b f0).cpsdvr = p ∧
        b ≤ (stage2_inner clk_hz speed_hz p b f0).scr ∧
        (stage2_inner clk_hz speed_hz p b f0).scr < SSP_SCR_MAX ∧
        (stage2_inner clk_hz speed_hz p b f0).freq
          = pl022_calc_freq clk_hz p (stage2_inner clk_hz speed_hz p b f0).scr ∧
        (stage2_inner clk_hz speed_hz p b f0).freq ≤ speed_hz ∧
        (∀ s, b ≤ s → s < (stage2_inner clk_hz speed_hz p b f0).scr →
          speed_hz < pl022_calc_freq clk_hz p s)) := by
  intro n
  induction n with
  | zero =>
    intro b f0 hn hb
    have hnot : ¬ b < SSP_SCR_MAX := by omega
    left
    rw [stage2_inner, dif_neg hnot]
    exact ⟨rfl, rfl, by show b = SSP_SCR_MAX; omega, fun s h1 h2 => by omega,
      fun h => absurd h hnot, fun _ => rfl⟩
  | succ n ih =>
    intro b f0 hn hb
    have hlt : b < SSP_SCR_MAX := by omega
    rw [stage2_inner, dif_pos hlt]
    dsimp only
    by_cases h1 : pl022_calc_freq clk_hz p b ≤ speed_hz
    · right
      rw [if_pos h1]
      exact ⟨rfl, rfl, le_refl _, hlt, rfl, h1,
        fun s hs1 hs2 => absurd hs2 (Nat.not_lt.mpr hs1)⟩
    · rw [if_neg h1]
      have hgt : speed_hz < pl022_calc_freq clk_hz p b := by omega
      rcases ih (b + 1) (pl022_calc_freq clk_hz p b) (by omega) (by omega) with h | h
      · left
        obtain ⟨e1, e2, e3, e4, e5, e6⟩ := h
        refine ⟨e1, e2, e3, ?_, ?_, fun h => by omega⟩
        · intro s hs1 hs2
          by_cases hsb : s = b
          · subst hsb; exact hgt
          · exact e4 s (by omega) hs2
        · intro _
          by_cases hb1 : b + 1 < SSP_SCR_MAX
          · exact e5 hb1
          · have hb2 : b + 1 = SSP_SCR_MAX := by omega
            rw [e6 hb2]
            congr 1
            omega
      · right
        obtain ⟨e1, e2, e3, e4, e5, e6, e7⟩ := h
        refine ⟨e1, e2, by omega, e4, e5, e6, ?_⟩
        intro s hs1 hs2
        by_cases hsb : s = b
        · subst hsb; exact hgt
        · exact e7 s (by omega) hs2

theorem stage2_outer_unfold (clk_hz speed_hz cpsdvr scr freq2 : Nat)
    (h : cpsdvr < SSP_CPSDVR_MAX) :
    stage2_outer clk_hz speed_hz cpsdvr scr freq2 =
      match (stage2_inner clk_hz speed_hz cpsdvr SSP_SCR_MIN freq2).exit with
      | Exit.exhausted => stage2_outer clk_hz speed_hz (cpsdvr + 1)
          (stage2_inner clk_hz speed_hz cpsdvr SSP_SCR_MIN freq2).scr
          (stage2_inner clk_hz speed_hz cpsdvr SSP_SCR_MIN freq2).freq
      | _ => stage2_inner clk_hz speed_hz cpsdvr SSP_SCR_MIN freq2 := by
  rw [stage2_outer]
  simp only [h, dite_true]

theorem stage2_outer_stop (clk_hz speed_hz cpsdvr scr freq2 : Nat)
    (h : ¬ cpsdvr < SSP_CPSDVR_MAX) :
    stage2_outer clk_hz speed_hz cpsdvr scr freq2 = ⟨Exit.exhausted, cpsdvr, scr, freq2⟩ := by
  rw [stage2_outer]
  simp only [h, dite_false]

theorem stage2_outer_spec (clk_hz speed_hz : Nat) :
    ∀ (n a s0 f0 : Nat), SSP_CPSDVR_MAX - a = n → a ≤ SSP_CPSDVR_MAX →
      ((stage2_outer clk_hz speed_hz a s0 f0).exit = Exit.exhausted ∧
        (stage2_outer clk_hz speed_hz a s0 f0).cpsdvr = SSP_CPSDVR_MAX ∧
        ColsAbove clk_hz speed_hz a SSP_CPSDVR_MAX ∧
        (a < SSP_CPSDVR_MAX →
          (stage2_outer clk_hz speed_hz a s0 f0).scr = SSP_SCR_MAX ∧
          (stage2_outer clk_hz speed_hz a s0 f0).freq
            = pl022_calc_freq clk_hz (SSP_CPSDVR_MAX - 1) (SSP_SCR_MAX - 1)) ∧
        (a = SSP_CPSDVR_MAX →
          (stage2_outer clk_hz speed_hz a s0 f0).scr = s0 ∧
          (stage2_outer clk_hz speed_hz a s0 f0).freq = f0))
      ∨ ((stage2_outer clk_hz speed_hz a s0 f0).exit = Exit.done ∧
        a ≤ (stage2_outer clk_hz speed_hz a s0 f0).cpsdvr ∧
        (stage2_outer clk_hz speed_hz a s0 f0).cpsdvr < SSP_CPSDVR_MAX ∧
        (stage2_outer clk_hz speed_hz a s0 f0).scr < SSP_SCR_MAX ∧
        (stage2_outer clk_hz speed_hz a s0 f0).freq
          = pl022_calc_freq clk_hz (stage2_outer clk_hz speed_hz a s0 f0).cpsdvr
              (stage2_outer clk_hz speed_hz a s0 f0).scr ∧
        (stage2_outer clk_hz speed_hz a s0 f0).freq ≤ speed_hz ∧
        ColsAbove clk_hz speed_hz a (stage2_outer clk_hz speed_hz a s0 f0).cpsdvr ∧
        (∀ s, s < (stage2_outer clk_hz speed_hz a s0 f0).scr →
          speed_hz < pl022_calc_freq clk_hz (stage2_outer clk_hz speed_hz a s0 f0).cpsdvr s)) := by
  intro n
  induction n with
  | zero =>
    intro a s0 f0 hn ha
    have hnot : ¬ a < SSP_CPSDVR_MAX := by omega
    left
    rw [stage2_outer_stop _ _ _ _ _ hnot]
    refine ⟨rfl, by show a = SSP_CPSDVR_MAX; omega, ?_, fun h => absurd h hnot,
      fun _ => ⟨rfl, rfl⟩⟩
    intro c s h1 h2
    omega
  | succ n ih =>
    intro a s0 f0 hn ha
    have hlt : a < SSP_CPSDVR_MAX := by omega
    rw [stage2_outer_unfold _ _ _ _ _ hlt]
    rcases stage2_inner_spec clk_hz speed_hz a _ SSP_SCR_MIN f0 rfl (by decide) with h | h
    · obtain ⟨e1, e2, e3, e4, e5, e6⟩ := h
      rw [e1]
      dsimp only
      have hcol : ∀ c s, c = a → s < SSP_SCR_MAX → speed_hz < pl022_calc_freq clk_hz c s := by
        intro c s hc h1
        subst hc
        exact e4 s (Nat.zero_le _) h1
      rcases ih (a + 1) _ _ (by omega) (by omega) with h | h
      · left
        obtain ⟨g1, g2, g3, g4, g5⟩ := h
        refine ⟨g1, g2, ?_, ?_, fun h => by omega⟩
        · intro c s h1 h2 h3
          by_cases hca : c = a
          · exact hcol c s hca h3
          · exact g3 c s (by omega) h2 h3
        · intro _
          by_cases ha1 : a + 1 < SSP_CPSDVR_MAX
          · exact g4 ha1
          · have ha2 : a + 1 = SSP_CPSDVR_MAX := by omega
            obtain ⟨k1, k2⟩ := g5 ha2
            refine ⟨by rw [k1, e3], ?_⟩
            rw [k2, e5 (by decide)]
            congr 1
            omega
      · right
        obtain ⟨g1, g2, g3, g4, g5, g6, g7, g8⟩ := h
        refine ⟨g1, by omega, g3, g4, g5, g6, ?_, g8⟩
        intro c s h1 h2 h3
        by_cases hca : c = a
        · exact hcol c s hca h3
        · exact g7 c s (by omega) h2 h3
    · obtain ⟨e1, e2, e3, e4, e5, e6, e7⟩ := h
      rw [e1]
      dsimp only
      right
      refine ⟨e1, by rw [e2], by rw [e2]; exact hlt, e4, by rw [e2]; exact e5, e6, ?_, ?_⟩
      · intro c s h1 h2
        rw [e2] at h2
        omega
      · intro s h1
        rw [e2]
        exact e7 s (Nat.zero_le _) h1


/-- Every pair the loops visit has a frequency at least that of the last visited pair. -/
theorem visited_ge_last (clk_hz c s : Nat) (hc1 : SSP_CPSDVR_MIN ≤ c) (hc : c < SSP_CPSDVR_MAX)
    (hs : s < SSP_SCR_MAX) :
    pl022_calc_freq clk_hz (SSP_CPSDVR_MAX - 1) (SSP_SCR_MAX - 1) ≤ pl022_calc_freq clk_hz c s := by
  apply pl022_calc_freq_anti
  · unfold SSP_CPSDVR_MIN at hc1; omega
  · unfold SSP_CPSDVR_MAX at *
    unfold SSP_SCR_MAX at *
    exact Nat.mul_le_mul (by omega) (by omega)

theorem stage1_top (clk_hz speed_hz : Nat) :
    ((stage1 clk_hz speed_hz).exit = Exit.exhausted ∧
      (stage1 clk_hz speed_hz).cpsdvr = SSP_CPSDVR_MAX ∧
      (stage1 clk_hz speed_hz).scr = SSP_SCR_MAX ∧
      (stage1 clk_hz speed_hz).freq
        = pl022_calc_freq clk_hz (SSP_CPSDVR_MAX - 1) (SSP_SCR_MAX - 1) ∧
      speed_hz < pl022_calc_freq clk_hz (SSP_CPSDVR_MAX - 1) (SSP_SCR_MAX - 1))
    ∨ (Stopped clk_hz speed_hz (stage1 clk_hz speed_hz) ∧
      pl022_calc_freq clk_hz (SSP_CPSDVR_MAX - 1) (SSP_SCR_MAX - 1) ≤ speed_hz ∧
      RowsAbove clk_hz speed_hz 0 (stage1 clk_hz speed_hz).scr ∧
      (∀ c, SSP_CPSDVR_MIN ≤ c → c < (stage1 clk_hz speed_hz).cpsdvr →
        speed_hz < pl022_calc_freq clk_hz c (stage1 clk_hz speed_hz).scr)) := by
  unfold stage1
  rcases stage1_outer_spec clk_hz speed_hz _ SSP_SCR_MIN 0 0 rfl (by decide) with h | h
  · left
    obtain ⟨g1, g2, g3, g4, _⟩ := h
    obtain ⟨k1, k2⟩ := g4 (by decide)
    exact ⟨g1, k1, g2, k2, g3 _ _ (by decide) (by decide) (by decide) (by decide)⟩
  · right
    obtain ⟨g1, g2, g3, g4⟩ := h
    refine ⟨g1, ?_, g3, g4⟩
    obtain ⟨_, s2, s3, s4, s5, s6, _⟩ := g1
    exact le_trans (visited_ge_last clk_hz _ _ s2 s3 s4) (s5 ▸ s6)

theorem stage2_top (clk_hz speed_hz : Nat) :
    ((stage2 clk_hz speed_hz).exit = Exit.exhausted ∧
      (stage2 clk_hz speed_hz).cpsdvr = SSP_CPSDVR_MAX ∧
      (stage2 clk_hz speed_hz).scr = SSP_SCR_MAX ∧
      (stage2 clk_hz speed_hz).freq
        = pl022_calc_freq clk_hz (SSP_CPSDVR_MAX - 1) (SSP_SCR_MAX - 1) ∧
      speed_hz < pl022_calc_freq clk_hz (SSP_CPSDVR_MAX - 1) (SSP_SCR_MAX - 1))
    ∨ ((stage2 clk_hz speed_hz).exit = Exit.done ∧
      SSP_CPSDVR_MIN ≤ (stage2 clk_hz speed_hz).cpsdvr ∧
      (stage2 clk_hz speed_hz).cpsdvr < SSP_CPSDVR_MAX ∧
      (stage2 clk_hz speed_hz).scr < SSP_SCR_MAX ∧
      (stage2 clk_hz speed_hz).freq
        = pl022_calc_freq clk_hz (stage2 clk_hz speed_hz).cpsdvr (stage2 clk_hz speed_hz).scr ∧
      (stage2 clk_hz speed_hz).freq ≤ speed_hz ∧
      pl022_calc_freq clk_hz (SSP_CPSDVR_MAX - 1) (SSP_SCR_MAX - 1) ≤ speed_hz ∧
      ColsAbove clk_hz speed_hz SSP_CPSDVR_MIN (stage2 clk_hz speed_hz).cpsdvr ∧
      (∀ s, s < (stage2 clk_hz speed_hz).scr →
        speed_hz < pl022_calc_freq clk_hz (stage2 clk_hz speed_hz).cpsdvr s)) := by
  unfold stage2
  rcases stage2_outer_spec clk_hz speed_hz _ SSP_CPSDVR_MIN 0 0 rfl (by decide) with h | h
  · left
    obtain ⟨g1, g2, g3, g4, _⟩ := h
    obtain ⟨k1, k2⟩ := g4 (by decide)
    exact ⟨g1, g2, k1, k2, g3 _ _ (by decide) (by decide) (by decide)⟩
  · right
    obtain ⟨g1, g2, g3, g4, g5, g6, g7, g8⟩ := h
    exact ⟨g1, g2, g3, g4, g5, g6,
      le_trans (visited_ge_last clk_hz _ _ g2 g3 g4) (g5 ▸ g6), g7, g8⟩

/-- When even the last visited pair `(253, 254)` is above `speed_hz`, both stages run to
exhaustion and the counters' final values `(254, 255)` are returned. -/
theorem calc_exhausted (clk_hz speed_hz : Nat)
    (h : speed_hz < pl022_calc_freq clk_hz (SSP_CPSDVR_MAX - 1) (SSP_SCR_MAX - 1)) :
    (stage1 clk_hz speed_hz).exit = Exit.exhausted ∧
    (stage2 clk_hz speed_hz).exit = Exit.exhausted ∧
    pl022_calc_clk_divisors clk_hz speed_hz = (SSP_CPSDVR_MAX, SSP_SCR_MAX) := by
  rcases stage1_top clk_hz speed_hz with h1 | h1
  · rcases stage2_top clk_hz speed_hz with h2 | h2
    · obtain ⟨a1, a2, a3, a4, _⟩ := h1
      obtain ⟨b1, b2, b3, b4, _⟩ := h2
      refine ⟨a1, b1, ?_⟩
      unfold pl022_calc_clk_divisors stage2_at_done
      rw [a1]
      dsimp only
      rw [a2, a3, a4, b4, if_pos (le_refl _)]
    · omega
  · omega

/-- When the last visited pair `(253, 254)` is not above `speed_hz`, stage 1 stops at a visited
pair, stage 2 (when it runs) stops at a visited pair, and the returned pair is a visited pair
whose frequency is the larger of the two candidates. -/
theorem calc_stopped (clk_hz speed_hz : Nat)
    (h : pl022_calc_freq clk_hz (SSP_CPSDVR_MAX - 1) (SSP_SCR_MAX - 1) ≤ speed_hz) :
    Stopped clk_hz speed_hz (stage1 clk_hz speed_hz) ∧
    ((stage1 clk_hz speed_hz).exit = Exit.stage2 → (stage2 clk_hz speed_hz).exit = Exit.done) ∧
    SSP_CPSDVR_MIN ≤ (pl022_calc_clk_divisors clk_hz speed_hz).1 ∧
    (pl022_calc_clk_divisors clk_hz speed_hz).1 < SSP_CPSDVR_MAX ∧
    (pl022_calc_clk_divisors clk_hz speed_hz).2 < SSP_SCR_MAX ∧
    pair_freq clk_hz (pl022_calc_clk_divisors clk_hz speed_hz) ≤ speed_hz ∧
    (stage1 clk_hz speed_hz).freq ≤ pair_freq clk_hz (pl022_calc_clk_divisors clk_hz speed_hz) := by
  rcases stage1_top clk_hz speed_hz with h1 | h1
  · omega
  · obtain ⟨hs, _, _, _⟩ := h1
    have hs' := hs
    obtain ⟨s1, s2, s3, s4, s5, s6, s7⟩ := hs'
    rcases stage2_top clk_hz speed_hz with h2 | h2
    · omega
    · obtain ⟨b1, b2, b3, b4, b5, b6, _, _, _⟩ := h2
      refine ⟨hs, fun _ => b1, ?_⟩
      unfold pl022_calc_clk_divisors stage2_at_done pair_freq
      cases hE : (stage1 clk_hz speed_hz).exit with
      | exhausted => exact absurd hE s1
      | done =>
        dsimp only
        rw [if_pos (Nat.zero_le _)]
        exact ⟨s2, s3, s4, s5 ▸ s6, le_of_eq s5⟩
      | stage2 =>
        dsimp only
        by_cases hc : (stage1 clk_hz speed_hz).freq ≥ (stage2 clk_hz speed_hz).freq
        · rw [if_pos hc]
          exact ⟨s2, s3, s4, s5 ▸ s6, le_of_eq s5⟩
        · rw [if_neg hc]
          refine ⟨b2, b3, b4, b5 ▸ b6, ?_⟩
          show (stage1 clk_hz speed_hz).freq
            ≤ pl022_calc_freq clk_hz (stage2 clk_hz speed_hz).cpsdvr (stage2 clk_hz speed_hz).scr
          rw [← b5]
          omega


/-- Stage 1 is determined by the first visited pair, in `scr`-major order, whose frequency does
not exceed `speed_hz`. -/
theorem stage1_at (clk_hz speed_hz c s : Nat) (hc1 : SSP_CPSDVR_MIN ≤ c)
    (hc2 : c < SSP_CPSDVR_MAX) (hs : s < SSP_SCR_MAX)
    (hle : pl022_calc_freq clk_hz c s ≤ speed_hz)
    (hrow : s = 0 ∨ speed_hz < pl022_calc_freq clk_hz (SSP_CPSDVR_MAX - 1) (s - 1))
    (hcol : c = SSP_CPSDVR_MIN ∨ speed_hz < pl022_calc_freq clk_hz (c - 1) s) :
    (stage1 clk_hz speed_hz).cpsdvr = c ∧ (stage1 clk_hz speed_hz).scr = s ∧
    (stage1 clk_hz speed_hz).freq = pl022_calc_freq clk_hz c s ∧
    Stopped clk_hz speed_hz (stage1 clk_hz speed_hz) := by
  have hlast := visited_ge_last clk_hz c s hc1 hc2 hs
  rcases stage1_top clk_hz speed_hz with h1 | h1
  · omega
  · obtain ⟨hst, _, hrows, hfirst⟩ := h1
    have hst' := hst
    obtain ⟨s1, s2, s3, s4, s5, s6, s7⟩ := hst'
    have hscr : (stage1 clk_hz speed_hz).scr = s := by
      rcases Nat.lt_trichotomy (stage1 clk_hz speed_hz).scr s with hlt | heq | hgt
      · rcases hrow with h0 | hr
        · omega
        · have : pl022_calc_freq clk_hz (SSP_CPSDVR_MAX - 1) (s - 1)
              ≤ pl022_calc_freq clk_hz (stage1 clk_hz speed_hz).cpsdvr
                  (stage1 clk_hz speed_hz).scr := by
            apply pl022_calc_freq_anti
            · unfold SSP_CPSDVR_MIN at s2; omega
            · unfold SSP_CPSDVR_MAX at *
              exact Nat.mul_le_mul (by omega) (by omega)
          omega
      · exact heq
      · have := hrows s c (Nat.zero_le _) hgt hc1 hc2
        omega
    rw [hscr] at s5 hfirst
    have hcp : (stage1 clk_hz speed_hz).cpsdvr = c := by
      rcases Nat.lt_trichotomy (stage1 clk_hz speed_hz).cpsdvr c with hlt | heq | hgt
      · rcases hcol with h0 | hr
        · omega
        · have : pl022_calc_freq clk_hz (c - 1) s
              ≤ pl022_calc_freq clk_hz (stage1 clk_hz speed_hz).cpsdvr s := by
            apply pl022_calc_freq_anti
            · unfold SSP_CPSDVR_MIN at s2; omega
            · exact Nat.mul_le_mul (by omega) (le_refl _)
          omega
      · exact heq
      · have := hfirst c hc1 hgt
        omega
    rw [hcp] at s5
    exact ⟨hcp, hscr, s5, hst⟩

/-- Stage 2 is determined by the first visited pair, in prescale-major order, whose frequency
does not exceed `speed_hz`. -/
theorem stage2_at (clk_hz speed_hz c s : Nat) (hc1 : SSP_CPSDVR_MIN ≤ c)
    (hc2 : c < SSP_CPSDVR_MAX) (hs : s < SSP_SCR_MAX)
    (hle : pl022_calc_freq clk_hz c s ≤ speed_hz)
    (hcol : c = SSP_CPSDVR_MIN ∨ speed_hz < pl022_calc_freq clk_hz (c - 1) (SSP_SCR_MAX - 1))
    (hrow : s = 0 ∨ speed_hz < pl022_calc_freq clk_hz c (s - 1)) :
    (stage2 clk_hz speed_hz).cpsdvr = c ∧ (stage2 clk_hz speed_hz).scr = s ∧
    (stage2 clk_hz speed_hz).freq = pl022_calc_freq clk_hz c s := by
  have hlast := visited_ge_last clk_hz c s hc1 hc2 hs
  rcases stage2_top clk_hz speed_hz with h1 | h1
  · omega
  · obtain ⟨_, s2, s3, s4, s5, s6, _, hcols, hfirst⟩ := h1
    have hcp : (stage2 clk_hz speed_hz).cpsdvr = c := by
      rcases Nat.lt_trichotomy (stage2 clk_hz speed_hz).cpsdvr c with hlt | heq | hgt
      · rcases hcol with h0 | hr
        · omega
        · have : pl022_calc_freq clk_hz (c - 1) (SSP_SCR_MAX - 1)
              ≤ pl022_calc_freq clk_hz (stage2 clk_hz speed_hz).cpsdvr
                  (stage2 clk_hz speed_hz).scr := by
            apply pl022_calc_freq_anti
            · unfold SSP_CPSDVR_MIN at s2; omega
            · unfold SSP_SCR_MAX at *
              exact Nat.mul_le_mul (by omega) (by omega)
          omega
      · exact heq
      · have := hcols c s hc1 hgt hs
        omega
    rw [hcp] at s5 hfirst
    have hscr : (stage2 clk_hz speed_hz).scr = s := by
      rcases Nat.lt_trichotomy (stage2 clk_hz speed_hz).scr s with hlt | heq | hgt
      · rcases hrow with h0 | hr
        · omega
        · have : pl022_calc_freq clk_hz c (s - 1)
              ≤ pl022_calc_freq clk_hz c (stage2 clk_hz speed_hz).scr := by
            apply pl022_calc_freq_anti
            · unfold SSP_CPSDVR_MIN at hc1; omega
            · exact Nat.mul_le_mul (le_refl _) (by omega)
          omega
      · exact heq
      · have := hfirst s hgt
        omega
    rw [hscr] at s5
    exact ⟨hcp, hscr, s5⟩

theorem calc_255000 : pl022_calc_clk_divisors 255000 1000 = (128, 1) := by
  obtain ⟨a1, a2, a3, a4⟩ := stage1_at 255000 1000 128 1 (by decide) (by decide) (by decide)
    (by decide) (Or.inr (by decide)) (Or.inr (by decide))
  obtain ⟨b1, b2, b3⟩ := stage2_at 255000 1000 2 127 (by decide) (by decide) (by decide)
    (by decide) (Or.inl rfl) (Or.inr (by decide))
  have hf1 : (stage1 255000 1000).freq = 996 := by rw [a3]; decide
  have hf2 : (stage2 255000 1000).freq = 996 := by rw [b3]; decide
  obtain ⟨s1, _, _, _, _, _, s7⟩ := a4
  unfold pl022_calc_clk_divisors stage2_at_done
  cases hE : (stage1 255000 1000).exit with
  | exhausted => exact absurd hE s1
  | done =>
    have := s7.mp hE
    omega
  | stage2 =>
    dsimp only
    rw [hf1, hf2, if_pos (le_refl _), a1, a2]

/-- At the label `done`, when the last visited pair is not above `speed_hz`: either stage 1 left
by `goto done` and its exact pair is returned, or stage 2 ran and the returned pair is one of
the two candidates, with a frequency at least that of both. -/
theorem calc_stopped_detail (clk_hz speed_hz : Nat)
    (h : pl022_calc_freq clk_hz (SSP_CPSDVR_MAX - 1) (SSP_SCR_MAX - 1) ≤ speed_hz) :
    ((stage1 clk_hz speed_hz).exit = Exit.done ∧
      pl022_calc_clk_divisors clk_hz speed_hz
        = ((stage1 clk_hz speed_hz).cpsdvr, (stage1 clk_hz speed_hz).scr) ∧
      pair_freq clk_hz (pl022_calc_clk_divisors clk_hz speed_hz) = speed_hz)
    ∨ ((stage1 clk_hz speed_hz).exit = Exit.stage2 ∧
      (pl022_calc_clk_divisors clk_hz speed_hz
          = ((stage1 clk_hz speed_hz).cpsdvr, (stage1 clk_hz speed_hz).scr) ∨
        pl022_calc_clk_divisors clk_hz speed_hz
          = ((stage2 clk_hz speed_hz).cpsdvr, (stage2 clk_hz speed_hz).scr)) ∧
      (stage1 clk_hz speed_hz).freq
        ≤ pair_freq clk_hz (pl022_calc_clk_divisors clk_hz speed_hz) ∧
      (stage2 clk_hz speed_hz).freq
        ≤ pair_freq clk_hz (pl022_calc_clk_divisors clk_hz speed_hz)) := by
  rcases stage1_top clk_hz speed_hz with h1 | h1
  · omega
  · obtain ⟨⟨s1, _, _, _, s5, _, s7⟩, _, _, _⟩ := h1
    rcases stage2_top clk_hz speed_hz with h2 | h2
    · omega
    · obtain ⟨_, _, _, _, b5, _, _, _, _⟩ := h2
      unfold pl022_calc_clk_divisors stage2_at_done pair_freq
      cases hE : (stage1 clk_hz speed_hz).exit with
      | exhausted => exact absurd hE s1
      | done =>
        left
        dsimp only
        rw [if_pos (Nat.zero_le _)]
        refine ⟨rfl, rfl, ?_⟩
        show pl022_calc_freq clk_hz (stage1 clk_hz speed_hz).cpsdvr (stage1 clk_hz speed_hz).scr
          = speed_hz
        rw [← s5]
        exact s7.mp hE
      | stage2 =>
        right
        dsimp only
        by_cases hc : (stage1 clk_hz speed_hz).freq ≥ (stage2 clk_hz speed_hz).freq
        · rw [if_pos hc]
          refine ⟨rfl, Or.inl rfl, ?_, ?_⟩
          · exact le_of_eq s5
          · show (stage2 clk_hz speed_hz).freq
              ≤ pl022_calc_freq clk_hz (stage1 clk_hz speed_hz).cpsdvr
                  (stage1 clk_hz speed_hz).scr
            rw [← s5]
            exact hc
        · rw [if_neg hc]
          refine ⟨rfl, Or.inr rfl, ?_, ?_⟩
          · show (stage1 clk_hz speed_hz).freq
              ≤ pl022_calc_freq clk_hz (stage2 clk_hz speed_hz).cpsdvr
                  (stage2 clk_hz speed_hz).scr
            rw [← b5]
            omega
          · exact le_of_eq b5

/-- Stage 1 stops in the first row that holds a visited pair not above `speed_hz`: the least
`scr` with `clk_hz / (253 * (1 + scr)) ≤ speed_hz`. -/
theorem stage1_row (clk_hz speed_hz s1 : Nat) (hs : s1 < SSP_SCR_MAX)
    (hle : pl022_calc_freq clk_hz (SSP_CPSDVR_MAX - 1) s1 ≤ speed_hz)
    (hprev : s1 = 0 ∨ speed_hz < pl022_calc_freq clk_hz (SSP_CPSDVR_MAX - 1) (s1 - 1)) :
    (stage1 clk_hz speed_hz).scr = s1 := by
  have hlast := visited_ge_last clk_hz (SSP_CPSDVR_MAX - 1) s1 (by decide) (by decide) hs
  rcases stage1_top clk_hz speed_hz with h1 | h1
  · omega
  · obtain ⟨⟨_, s2, s3, s4, s5, s6, _⟩, _, hrows, _⟩ := h1
    rcases Nat.lt_trichotomy (stage1 clk_hz speed_hz).scr s1 with hlt | heq | hgt
    · rcases hprev with h0 | hr
      · omega
      · have : pl022_calc_freq clk_hz (SSP_CPSDVR_MAX - 1) (s1 - 1)
            ≤ pl022_calc_freq clk_hz (stage1 clk_hz speed_hz).cpsdvr
                (stage1 clk_hz speed_hz).scr := by
          apply pl022_calc_freq_anti
          · unfold SSP_CPSDVR_MIN at s2; omega
          · unfold SSP_CPSDVR_MAX at *
            exact Nat.mul_le_mul (by omega) (by omega)
        omega
    · exact heq
    · have := hrows s1 (SSP_CPSDVR_MAX - 1) (Nat.zero_le _) hgt (by decide) (by decide)
      omega

/-- Stage 2 stops in the first column that holds a visited pair not above `speed_hz`: the least
prescale with `clk_hz / (prescale * 255) ≤ speed_hz`. -/
theorem stage2_col (clk_hz speed_hz p2 : Nat) (hp1 : SSP_CPSDVR_MIN ≤ p2)
    (hp2 : p2 < SSP_CPSDVR_MAX)
    (hle : pl022_calc_freq clk_hz p2 (SSP_SCR_MAX - 1) ≤ speed_hz)
    (hprev : p2 = SSP_CPSDVR_MIN ∨
      speed_hz < pl022_calc_freq clk_hz (p2 - 1) (SSP_SCR_MAX - 1)) :
    (stage2 clk_hz speed_hz).cpsdvr = p2 := by
  have hlast := visited_ge_last clk_hz p2 (SSP_SCR_MAX - 1) hp1 hp2 (by decide)
  rcases stage2_top clk_hz speed_hz with h1 | h1
  · omega
  · obtain ⟨_, s2, s3, s4, s5, s6, _, hcols, _⟩ := h1
    rcases Nat.lt_trichotomy (stage2 clk_hz speed_hz).cpsdvr p2 with hlt | heq | hgt
    · rcases hprev with h0 | hr
      · omega
      · have : pl022_calc_freq clk_hz (p2 - 1) (SSP_SCR_MAX - 1)
            ≤ pl022_calc_freq clk_hz (stage2 clk_hz speed_hz).cpsdvr
                (stage2 clk_hz speed_hz).scr := by
          apply pl022_calc_freq_anti
          · unfold SSP_CPSDVR_MIN at s2; omega
          · unfold SSP_SCR_MAX at *
            exact Nat.mul_le_mul (by omega) (by omega)
        omega
    · exact heq
    · have := hcols p2 (SSP_SCR_MAX - 1) hp1 hgt (by decide)
      omega

/-! ## Facts about configuration -/

theorem io_mask_trace {σ : Type} (D : Device σ) (w addr val mask : Nat) (s : World σ) :
    ∃ r, r < 2 ^ w ∧ (io_mask D w addr val mask s).trace
      = s.trace ++ [Access.read w addr r, Access.write w addr (masked w r val mask % 2 ^ w)] := by
  refine ⟨(D.read w addr s.dev).1 % 2 ^ w, Nat.mod_lt _ (Nat.pos_pow_of_pos w (by decide)), ?_⟩
  simp [io_mask, mmio_read, mmio_write]

theorem dmsg_reads_trace {σ : Type} (D : Device σ) (b : Build) (addrs : List Nat) :
    ∀ s : World σ, ∃ pre, (dmsg_reads D b addrs s).trace = s.trace ++ pre ∧
      ∀ a ∈ pre, is_read a = true := by
  unfold dmsg_reads
  cases b.dmsg with
  | false => intro s; exact ⟨[], by simp, by simp⟩
  | true =>
    simp only [if_true]
    induction addrs with
    | nil => intro s; exact ⟨[], by simp, by simp⟩
    | cons a t ih =>
      intro s
      obtain ⟨pre, h1, h2⟩ := ih (read32 D a s).2
      refine ⟨Access.read 32 a ((D.read 32 a s.dev).1 % 2 ^ 32) :: pre, ?_, ?_⟩
      · rw [List.foldl_cons, h1]
        simp [read32, mmio_read]
      · intro x hx
        rcases List.mem_cons.mp hx with h | h
        · rw [h]; rfl
        · exact h2 x h

theorem sanity_check_ok {σ : Type} (D : Device σ) (b : Build) (pd : pl022_data) (s : World σ)
    (h : b.ndebug = true ∨ failed_assert pd = none) :
    ∃ s1 pre, pl022_sanity_check D b pd s = Except.ok s1 ∧ s1.trace = s.trace ++ pre ∧
      ∀ a ∈ pre, is_read a = true := by
  have hnone : (if b.ndebug = true then none else failed_assert pd) = none := by
    rcases h with h | h
    · simp [h]
    · simp [h]
  unfold pl022_sanity_check
  rw [hnone]
  dsimp only
  unfold pl022_print_cell_id pl022_print_peri_id
  have h0 : ∃ pre, (if b.hikey = true then dmsg_reads D b [pd.base + SSPB2BTRANS] s else s).trace
      = s.trace ++ pre ∧ ∀ a ∈ pre, is_read a = true := by
    cases b.hikey with
    | false => exact ⟨[], by simp, by simp⟩
    | true => simpa using dmsg_reads_trace D b [pd.base + SSPB2BTRANS] s
  obtain ⟨p0, e0, r0⟩ := h0
  obtain ⟨p1, e1, r1⟩ := dmsg_reads_trace D b [pd.base + SSPPeriphID0, pd.base + SSPPeriphID1,
    pd.base + SSPPeriphID2, pd.base + SSPPeriphID3]
    (if b.hikey = true then dmsg_reads D b [pd.base + SSPB2BTRANS] s else s)
  obtain ⟨p2, e2, r2⟩ := dmsg_reads_trace D b [pd.base + SSPPCellID0, pd.base + SSPPCellID1,
    pd.base + SSPPCellID2, pd.base + SSPPCellID3]
    (dmsg_reads D b [pd.base + SSPPeriphID0, pd.base + SSPPeriphID1,
      pd.base + SSPPeriphID2, pd.base + SSPPeriphID3]
      (if b.hikey = true then dmsg_reads D b [pd.base + SSPB2BTRANS] s else s))
  refine ⟨_, p0 ++ p1 ++ p2, rfl, ?_, ?_⟩
  · rw [e2, e1, e0]
    simp
  · intro a ha
    rcases List.mem_append.mp ha with h | h
    · rcases List.mem_append.mp h with h | h
      · exact r0 a h
      · exact r1 a h
    · exact r2 a h

theorem sanity_check_fails {σ : Type} (D : Device σ) (b : Build) (pd : pl022_data)
    (s : World σ) (n : Nat) (hb : b.ndebug = false) (h : failed_assert pd = some n) :
    pl022_sanity_check D b pd s = Except.error (Fatal.assert_failed n) := by
  unfold pl022_sanity_check
  simp [hb, h]

theorem failed_assert_none_iff (pd : pl022_data) :
    failed_assert pd = none ↔
      (pd.base ≠ 0 ∧ pd.cs_gpio_base ≠ 0 ∧ pd.clk_hz ≠ 0 ∧ pd.speed_hz ≠ 0 ∧
        pd.speed_hz ≤ pd.clk_hz / 2 ∧ pd.mode ≤ 3 ∧
        (pd.data_size_bits = 8 ∨ pd.data_size_bits = 16)) := by
  unfold failed_assert SPI_MODE3
  constructor
  · intro h
    split_ifs at h; tauto
  · rintro ⟨h1, h2, h3, h4, h5, h6, h7⟩
    simp [h1, h2, h3, h4, h5, h6, h7]

theorem mode_bits_none_iff (mode : Nat) : mode_bits mode = none ↔ ¬ mode ≤ 3 := by
  unfold mode_bits SPI_MODE0 SPI_MODE1 SPI_MODE2 SPI_MODE3
  constructor
  · intro h
    split_ifs at h
    omega
  · intro h
    have h0 : mode ≠ 0 := by omega
    have h1 : mode ≠ 1 := by omega
    have h2 : mode ≠ 2 := by omega
    have h3 : mode ≠ 3 := by omega
    simp [h0, h1, h2, h3]

theorem data_size_code_none_iff (n : Nat) : data_size_code n = none ↔ ¬ (n = 8 ∨ n = 16) := by
  unfold data_size_code
  constructor
  · intro h
    split_ifs at h
    omega
  · intro h
    have h0 : n ≠ 8 := by omega
    have h1 : n ≠ 16 := by omega
    simp [h0, h1]

theorem configure_halts_of_bad_switch {σ : Type} (D : Device σ) (b : Build) (pd : pl022_data)
    (s : World σ) (h : mode_bits pd.mode = none ∨ data_size_code pd.data_size_bits = none) :
    ∃ e, pl022_configure D b pd s = Except.error e := by
  unfold pl022_configure
  cases hs : pl022_sanity_check D b pd s with
  | error e => exact ⟨e, rfl⟩
  | ok s1 =>
    dsimp only
    cases hm : mode_bits pd.mode with
    | none => exact ⟨Fatal.panic, rfl⟩
    | some m =>
      dsimp only
      cases hd : data_size_code pd.data_size_bits with
      | none => exact ⟨Fatal.panic, rfl⟩
      | some d =>
        rcases h with h | h
        · rw [hm] at h; exact absurd h (by simp)
        · rw [hd] at h; exact absurd h (by simp)

theorem valid_instance_iff (pd : pl022_data) : valid_instance pd ↔ failed_assert pd = none := by
  rw [failed_assert_none_iff]
  unfold valid_instance
  constructor
  · rintro ⟨h1, h2, h3, h4, h5, h6, h7⟩
    exact ⟨h1, h2, h3, by omega, h5, h6, h7⟩
  · rintro ⟨h1, h2, h3, h4, h5, h6, h7⟩
    exact ⟨h1, h2, h3, by omega, h5, h6, h7⟩

theorem masked16_full (r val : Nat) : masked 16 r val MASK_16 % 2 ^ 16 = val % 65536 := by
  show masked 16 r val MASK_16 % 65536 = val % 65536
  suffices hm : masked 16 r val MASK_16 = val % 65536 by rw [hm, Nat.mod_mod]
  have h : (val % 65536) &&& 65535 = val % 65536 := by
    have := Nat.and_pow_two_sub_one_eq_mod (val % 65536) 16
    simpa using this
  unfold masked MASK_16
  show (r &&& 0) ||| ((val % 65536) &&& 65535) = val % 65536
  rw [Nat.and_zero, Nat.zero_or, h]

theorem masked8_full (r val : Nat) : masked 8 r val SSPCPSR_CPSDVR % 2 ^ 8 = val % 256 := by
  show masked 8 r val SSPCPSR_CPSDVR % 256 = val % 256
  suffices hm : masked 8 r val SSPCPSR_CPSDVR = val % 256 by rw [hm, Nat.mod_mod]
  have h : (val % 256) &&& 255 = val % 256 := by
    have := Nat.and_pow_two_sub_one_eq_mod (val % 256) 8
    simpa using this
  unfold masked
  show (r &&& 0) ||| ((val % 256) &&& 255) = val % 256
  rw [Nat.and_zero, Nat.zero_or, h]

set_option maxRecDepth 1000000 in
theorem cr0_value_fin : ∀ (scr : Fin 256) (m : Fin 4) (d : Bool),
    (SHIFT_U32 scr.val 8 ||| (mode_bits m.val).getD 0 ||| SSPCR0_FRF_SPI
        ||| (if d then PL022_DATA_SIZE8 else PL022_DATA_SIZE16)) % 65536
      = (scr.val <<< 8) ||| spec_mode_bits m.val ||| (if d then 0x7 else 0xF) ∧
    (((scr.val <<< 8) ||| spec_mode_bits m.val ||| (if d then 0x7 else 0xF)) / 16) % 4 = 0 := by
  decide

set_option maxRecDepth 1000000 in
theorem cr1_value_fin : ∀ (c : Fin 256) (l : Bool),
    masked 8 c.val (SSPCR1_SOD_DISABLE ||| SSPCR1_MS_MASTER ||| SSPCR1_SSE_DISABLE
        ||| (if l then SSPCR1_LBM_YES else SSPCR1_LBM_NO)) MASK_4 % 2 ^ 8
      = c.val / 16 * 16 + (if l then 1 else 0) := by
  decide

set_option maxRecDepth 1000000 in
theorem imsc_value_fin : ∀ (c : Fin 256), masked 8 c.val 0 MASK_4 % 2 ^ 8 = c.val / 16 * 16 := by
  decide

set_option maxRecDepth 1000000 in
theorem sse_value_fin : ∀ (c : Fin 256),
    masked 8 c.val SSPCR1_SSE_ENABLE SSPCR1_SSE % 2 ^ 8 = c.val ||| 2 := by
  decide

theorem calc_in_range (clk_hz speed_hz : Nat) :
    2 ≤ (pl022_calc_clk_divisors clk_hz speed_hz).1 ∧
    (pl022_calc_clk_divisors clk_hz speed_hz).1 ≤ 254 ∧
    (pl022_calc_clk_divisors clk_hz speed_hz).2 ≤ 255 := by
  by_cases h : pl022_calc_freq clk_hz (SSP_CPSDVR_MAX - 1) (SSP_SCR_MAX - 1) ≤ speed_hz
  · obtain ⟨_, _, r1, r2, r3, _, _⟩ := calc_stopped clk_hz speed_hz h
    unfold SSP_CPSDVR_MIN at r1
    unfold SSP_CPSDVR_MAX at r2
    unfold SSP_SCR_MAX at r3
    exact ⟨r1, by omega, by omega⟩
  · rw [(calc_exhausted clk_hz speed_hz (by omega)).2.2]
    exact ⟨by decide, by decide, by decide⟩

theorem mode_bits_some (mode : Nat) (h : mode ≤ 3) :
    mode_bits mode = some ((mode_bits mode).getD 0) := by
  have : mode = 0 ∨ mode = 1 ∨ mode = 2 ∨ mode = 3 := by omega
  rcases this with h | h | h | h <;> subst h <;> rfl

theorem data_size_code_some (n : Nat) (h : n = 8 ∨ n = 16) :
    data_size_code n = some (if decide (n = 8) = true then PL022_DATA_SIZE8 else PL022_DATA_SIZE16) := by
  rcases h with h | h <;> subst h <;> rfl

theorem configure_returns {σ : Type} (D : Device σ) (b : Build) (pd : pl022_data)
    (s : World σ) (hv : valid_instance pd) :
    ∃ s1, pl022_configure D b pd s = Except.ok s1 := by
  have hfa := (valid_instance_iff pd).mp hv
  obtain ⟨_, _, _, _, _, hmode, hds⟩ := hv
  obtain ⟨s1, _, hs, _, _⟩ := sanity_check_ok D b pd s (Or.inr hfa)
  unfold pl022_configure
  rw [hs]
  dsimp only
  rw [mode_bits_some pd.mode hmode]
  dsimp only
  rw [data_size_code_some pd.data_size_bits hds]
  exact ⟨_, rfl⟩

/-! ## Facts about the transfer loops -/

theorem sspsr_ne_sspdr (base : Nat) : base + SSPSR ≠ base + SSPDR := by
  unfold SSPSR SSPDR; omega

theorem sspsr_ne_sspdr_offset : ¬ SSPSR = SSPDR := by decide

theorem tx_fill_trace {σ : Type} (D : Device σ) (w : Nat) (pd : pl022_data) (wdat : Nat → Nat)
    (n : Nat) : ∀ (fuel i : Nat) (s s1 : World σ),
      tx_fill D w pd wdat n fuel i s = some s1 →
      ∃ mid, s1.trace = s.trace ++ mid ∧ FillTrace w pd.base wdat n i mid := by
  intro fuel
  induction fuel with
  | zero => intro i s s1 h; simp [tx_fill] at h
  | succ fuel ih =>
    intro i s s1 h
    rw [tx_fill] at h
    by_cases hi : i < n
    · rw [if_pos hi] at h
      dsimp only at h
      by_cases hv : (read8 D (pd.base + SSPSR) s).1 &&& SSPSR_TNF ≠ 0
      · rw [if_pos hv] at h
        obtain ⟨mid, h1, h2⟩ := ih _ _ _ h
        refine ⟨Access.read 8 (pd.base + SSPSR) (read8 D (pd.base + SSPSR) s).1
          :: Access.write w (pd.base + SSPDR) (wdat i % 2 ^ w) :: mid, ?_, ?_⟩
        · rw [h1]
          simp [mmio_write, read8, mmio_read]
        · exact FillTrace.send i _ mid hi hv h2
      · rw [if_neg hv] at h
        obtain ⟨mid, h1, h2⟩ := ih _ _ _ h
        refine ⟨Access.read 8 (pd.base + SSPSR) (read8 D (pd.base + SSPSR) s).1 :: mid, ?_, ?_⟩
        · rw [h1]
          simp [read8, mmio_read]
        · exact FillTrace.wait i _ mid hi (by simpa using hv) h2
    · rw [if_neg hi] at h
      have : s1 = s := (Option.some.inj h).symm
      subst this
      exact ⟨[], by simp, FillTrace.finished i hi⟩

theorem tx_fill_mono {σ : Type} (D : Device σ) (w : Nat) (pd : pl022_data) (wdat : Nat → Nat)
    (n : Nat) : ∀ (fuel i : Nat) (s s1 : World σ),
      tx_fill D w pd wdat n fuel i s = some s1 →
      tx_fill D w pd wdat n (fuel + 1) i s = some s1 := by
  intro fuel
  induction fuel with
  | zero => intro i s s1 h; simp [tx_fill] at h
  | succ fuel ih =>
    intro i s s1 h
    rw [tx_fill] at h ⊢
    by_cases hi : i < n
    · rw [if_pos hi] at h ⊢
      dsimp only at h ⊢
      by_cases hv : (read8 D (pd.base + SSPSR) s).1 &&& SSPSR_TNF ≠ 0
      · rw [if_pos hv] at h ⊢
        exact ih _ _ _ h
      · rw [if_neg hv] at h ⊢
        exact ih _ _ _ h
    · rw [if_neg hi] at h ⊢
      exact h

theorem tx_fill_mono_le {σ : Type} (D : Device σ) (w : Nat) (pd : pl022_data)
    (wdat : Nat → Nat) (n fuel i : Nat) (s s1 : World σ)
    (h : tx_fill D w pd wdat n fuel i s = some s1) :
    ∀ fuel1, fuel ≤ fuel1 → tx_fill D w pd wdat n fuel1 i s = some s1 := by
  intro fuel1 hle
  induction hle with
  | refl => exact h
  | step _ ih => exact tx_fill_mono D w pd wdat n _ i s s1 ih

theorem fill_trace_writes (w base : Nat) (wdat : Nat → Nat) (n : Nat) :
    ∀ (i : Nat) (t : List Access), FillTrace w base wdat n i t →
      data_writes base t = (List.range' i (n - i)).map (fun k => wdat k % 2 ^ w) ∧
      data_reads base t = [] ∧
      (∀ a ∈ t, is_status_read base a = true ∨ is_data_write base a = true) := by
  intro i t h
  induction h with
  | finished i h =>
    have : n - i = 0 := by omega
    rw [this]
    exact ⟨rfl, rfl, by simp⟩
  | wait i v t hi hv _ ih =>
    obtain ⟨h1, h2, h3⟩ := ih
    refine ⟨by simpa [data_writes] using h1, ?_, ?_⟩
    · simp [data_reads, sspsr_ne_sspdr_offset, h2]
    · intro a ha
      rcases List.mem_cons.mp ha with h | h
      · left; rw [h]; simp [is_status_read]
      · exact h3 a h
  | send i v t hi hv _ ih =>
    obtain ⟨h1, h2, h3⟩ := ih
    refine ⟨?_, ?_, ?_⟩
    · have hn : n - i = (n - (i + 1)) + 1 := by omega
      rw [hn, List.range'_succ]
      simp [data_writes, h1]
    · simp [data_reads, sspsr_ne_sspdr_offset, h2]
    · intro a ha
      rcases List.mem_cons.mp ha with h | h
      · left; rw [h]; simp [is_status_read]
      · rcases List.mem_cons.mp h with h | h
        · right; rw [h]; simp [is_data_write]
        · exact h3 a h

theorem fill_trace_zero (w base : Nat) (wdat : Nat → Nat) (t : List Access)
    (h : FillTrace w base wdat 0 0 t) : t = [] := by
  cases h with
  | finished _ _ => rfl
  | wait _ _ _ hi _ _ => exact absurd hi (by omega)
  | send _ _ _ hi _ _ => exact absurd hi (by omega)

/-- Polling until the not-full bit shows, then writing the element. -/
theorem tx_fill_poll {σ : Type} (D : Device σ) (w : Nat) (pd : pl022_data) (wdat : Nat → Nat)
    (n i : Nat) (hi : i < n) : ∀ (k : Nat) (s : World σ),
      (∀ j, j < k → ¬ tnf_set D pd (status_poll D pd j s.dev)) →
      tnf_set D pd (status_poll D pd k s.dev) →
      ∃ s2 : World σ,
        s2.dev = D.write w (pd.base + SSPDR) (wdat i % 2 ^ w) (status_poll D pd (k + 1) s.dev) ∧
        ∀ fuel, tx_fill D w pd wdat n (fuel + (k + 1)) i s
          = tx_fill D w pd wdat n fuel (i + 1) s2 := by
  intro k
  induction k with
  | zero =>
    intro s _ hset
    refine ⟨mmio_write D w (wdat i) (pd.base + SSPDR) (read8 D (pd.base + SSPSR) s).2, rfl, ?_⟩
    intro fuel
    have hv : (read8 D (pd.base + SSPSR) s).1 &&& SSPSR_TNF ≠ 0 := hset
    show tx_fill D w pd wdat n (fuel + 1) i s = _
    rw [tx_fill, if_pos hi]
    dsimp only
    rw [if_pos hv]
  | succ k ih =>
    intro s hclear hset
    have h0 : ¬ (read8 D (pd.base + SSPSR) s).1 &&& SSPSR_TNF ≠ 0 := hclear 0 (by omega)
    obtain ⟨s2, e1, e2⟩ := ih (read8 D (pd.base + SSPSR) s).2
      (fun j hj => hclear (j + 1) (by omega)) hset
    refine ⟨s2, e1, ?_⟩
    intro fuel
    show tx_fill D w pd wdat n ((fuel + (k + 1)) + 1) i s = _
    rw [tx_fill, if_pos hi]
    dsimp only
    rw [if_neg h0]
    exact e2 fuel

theorem tx_fill_live {σ : Type} (D : Device σ) (w : Nat) (pd : pl022_data) (wdat : Nat → Nat)
    (n : Nat) : ∀ (r i : Nat) (s : World σ), i + r = n →
      TxLive D w pd wdat r i s.dev → ∃ fuel s1, tx_fill D w pd wdat n fuel i s = some s1 := by
  intro r
  induction r with
  | zero =>
    intro i s hir _
    refine ⟨1, s, ?_⟩
    rw [tx_fill, if_neg (by omega)]
  | succ r ih =>
    intro i s hir hlive
    obtain ⟨k, hclear, hset, hrest⟩ := hlive
    obtain ⟨s2, e1, e2⟩ := tx_fill_poll D w pd wdat n i (by omega) k s hclear hset
    rw [← e1] at hrest
    obtain ⟨fuel, s1, h⟩ := ih (i + 1) s2 (by omega) hrest
    exact ⟨fuel + (k + 1), s1, by rw [e2 fuel, h]⟩

theorem data_reads_append (base : Nat) (t u : List Access) :
    data_reads base (t ++ u) = data_reads base t ++ data_reads base u := by
  induction t with
  | nil => rfl
  | cons a t ih =>
    cases a with
    | read w addr v =>
      by_cases h : addr = base + SSPDR
      · simp [data_reads, h, ih]
      · simp [data_reads, h, ih]
    | write _ _ _ => simpa [data_reads] using ih
    | gpio_set_direction _ _ => simpa [data_reads] using ih
    | gpio_set_value _ _ => simpa [data_reads] using ih

theorem data_writes_append (base : Nat) (t u : List Access) :
    data_writes base (t ++ u) = data_writes base t ++ data_writes base u := by
  induction t with
  | nil => rfl
  | cons a t ih =>
    cases a with
    | write w addr v =>
      by_cases h : addr = base + SSPDR
      · simp [data_writes, h, ih]
      · simp [data_writes, h, ih]
    | read _ _ _ => simpa [data_writes] using ih
    | gpio_set_direction _ _ => simpa [data_writes] using ih
    | gpio_set_value _ _ => simpa [data_writes] using ih

theorem data_writes_of_reads (base : Nat) (t : List Access)
    (h : ∀ a ∈ t, is_status_read base a = true ∨ is_data_read base a = true) :
    data_writes base t = [] := by
  induction t with
  | nil => rfl
  | cons a t ih =>
    have ha := h a (List.mem_cons_self a t)
    have ht := ih (fun x hx => h x (List.mem_cons_of_mem a hx))
    cases a with
    | read _ _ _ => simpa [data_writes] using ht
    | write _ _ _ => simp [is_status_read, is_data_read] at ha
    | gpio_set_direction _ _ => simp [is_status_read, is_data_read] at ha
    | gpio_set_value _ _ => simp [is_status_read, is_data_read] at ha

theorem rx_trace_append (base j j1 j2 n : Nat) (t u : List Access)
    (h1 : RxTrace base j j1 n t) (h2 : RxTrace base j1 j2 n u) :
    RxTrace base j j2 n (t ++ u) := by
  obtain ⟨a1, a2, a3⟩ := h1
  obtain ⟨b1, b2, b3⟩ := h2
  refine ⟨?_, ?_, fun h => b3 (a3 h)⟩
  · intro a ha
    rcases List.mem_append.mp ha with h | h
    · exact a1 a h
    · exact b1 a h
  · rw [data_reads_append, List.length_append]
    omega

theorem rx_inner_trace {σ : Type} (D : Device σ) (w : Nat) (pd : pl022_data) (n : Nat) :
    ∀ (fuel j : Nat) (rdat : Nat → Nat) (s : World σ) (j1 : Nat) (rdat1 : Nat → Nat)
      (s1 : World σ),
      rx_inner D w pd n fuel j rdat s = some (j1, rdat1, s1) →
      ∃ mid, s1.trace = s.trace ++ mid ∧ RxTrace pd.base j j1 n mid := by
  intro fuel
  induction fuel with
  | zero => intro j rdat s j1 rdat1 s1 h; simp [rx_inner] at h
  | succ fuel ih =>
    intro j rdat s j1 rdat1 s1 h
    rw [rx_inner] at h
    dsimp only at h
    by_cases hc : (read8 D (pd.base + SSPSR) s).1 &&& SSPSR_RNE ≠ 0 ∧ j < n
    · rw [if_pos hc] at h
      obtain ⟨mid, e1, e2⟩ := ih _ _ _ _ _ _ h
      refine ⟨[Access.read 8 (pd.base + SSPSR) (read8 D (pd.base + SSPSR) s).1,
        Access.read w (pd.base + SSPDR)
          (mmio_read D w (pd.base + SSPDR) (read8 D (pd.base + SSPSR) s).2).1] ++ mid, ?_, ?_⟩
      · rw [e1]
        simp [read8, mmio_read]
      · refine rx_trace_append pd.base j (j + 1) j1 n _ _ ⟨?_, ?_, fun _ => by omega⟩ e2
        · intro a ha
          simp only [List.mem_cons, List.mem_singleton, List.not_mem_nil, or_false] at ha
          rcases ha with h | h
          · left; rw [h]; simp [is_status_read]
          · right; rw [h]; simp [is_data_read]
        · simp [data_reads, sspsr_ne_sspdr_offset]
    · rw [if_neg hc] at h
      simp only [Option.some.injEq, Prod.mk.injEq] at h
      obtain ⟨h1, _, h3⟩ := h
      subst h1
      subst h3
      refine ⟨[Access.read 8 (pd.base + SSPSR) (read8 D (pd.base + SSPSR) s).1], ?_, ?_, ?_,
        fun h => h⟩
      · simp [read8, mmio_read]
      · intro a ha
        left
        rw [List.mem_singleton.mp ha]
        simp [is_status_read]
      · simp [data_reads, sspsr_ne_sspdr_offset]

theorem rx_drain_trace {σ : Type} (D : Device σ) (w : Nat) (pd : pl022_data) (n : Nat) :
    ∀ (fuel j : Nat) (rdat : Nat → Nat) (s : World σ) (j1 : Nat) (rdat1 : Nat → Nat)
      (s1 : World σ),
      rx_drain D w pd n fuel j rdat s = some (j1, rdat1, s1) →
      ∃ mid, s1.trace = s.trace ++ mid ∧ RxTrace pd.base j j1 n mid := by
  intro fuel
  induction fuel with
  | zero => intro j rdat s j1 rdat1 s1 h; simp [rx_drain] at h
  | succ fuel ih =>
    intro j rdat s j1 rdat1 s1 h
    rw [rx_drain] at h
    cases hin : rx_inner D w pd n fuel j rdat s with
    | none => rw [hin] at h; simp at h
    | some res =>
      obtain ⟨j2, rdat2, s2⟩ := res
      rw [hin] at h
      dsimp only at h
      obtain ⟨m1, e1, t1⟩ := rx_inner_trace D w pd n fuel j rdat s j2 rdat2 s2 hin
      have hst : RxTrace pd.base j2 j2 n
          [Access.read 8 (pd.base + SSPSR) (read8 D (pd.base + SSPSR) s2).1] := by
        refine ⟨?_, ?_, fun h => h⟩
        · intro a ha
          left
          rw [List.mem_singleton.mp ha]
          simp [is_status_read]
        · simp [data_reads, sspsr_ne_sspdr_offset]
      have htr : (read8 D (pd.base + SSPSR) s2).2.trace
          = s.trace ++ (m1 ++ [Access.read 8 (pd.base + SSPSR)
              (read8 D (pd.base + SSPSR) s2).1]) := by
        simp [read8, mmio_read, e1]
      by_cases hc : (read8 D (pd.base + SSPSR) s2).1 &&& SSPSR_BSY ≠ 0 ∧ j2 < n
      · rw [if_pos hc] at h
        obtain ⟨m2, e2, t2⟩ := ih _ _ _ _ _ _ h
        refine ⟨(m1 ++ [Access.read 8 (pd.base + SSPSR) (read8 D (pd.base + SSPSR) s2).1])
          ++ m2, ?_, ?_⟩
        · rw [e2, htr]
          simp
        · exact rx_trace_append _ _ _ _ _ _ _ (rx_trace_append _ _ _ _ _ _ _ t1 hst) t2
      · rw [if_neg hc] at h
        simp only [Option.some.injEq, Prod.mk.injEq] at h
        obtain ⟨h1, _, h3⟩ := h
        subst h1
        subst h3
        exact ⟨_, htr, rx_trace_append _ _ _ _ _ _ _ t1 hst⟩

/-! ## Facts about the register mock -/

theorem mock_status_lt (tfe tnf rff bsy_data : Bool) (m : Mock) :
    mock_status tfe tnf rff bsy_data m < 32 := by
  unfold mock_status
  split_ifs <;> omega

theorem mock_status_empty (tfe tnf rff bsy_data : Bool) (m : Mock) (h : m.rxfifo = []) :
    mock_status tfe tnf rff bsy_data m &&& SSPSR_RNE = 0 ∧
    mock_status tfe tnf rff bsy_data m &&& SSPSR_BSY = 0 := by
  unfold mock_status
  rw [h]
  cases tfe <;> cases tnf <;> cases rff <;> cases bsy_data <;> decide

theorem mock_status_nonempty (tfe tnf rff bsy_data : Bool) (m : Mock) (h : m.rxfifo ≠ []) :
    mock_status tfe tnf rff bsy_data m &&& SSPSR_RNE ≠ 0 := by
  unfold mock_status
  simp only [h, if_false, ne_eq, not_false_eq_true, true_and]
  cases tfe <;> cases tnf <;> cases rff <;> cases bsy_data <;> decide

theorem mock_read_status (base : Nat) (tfe tnf rff bsy_data : Bool) (w : Nat) (hw : 5 ≤ w)
    (s : World Mock) :
    mmio_read (mock_device base tfe tnf rff bsy_data) w (base + SSPSR) s
      = (mock_status tfe tnf rff bsy_data s.dev,
          ⟨s.dev, s.trace ++ [Access.read w (base + SSPSR)
            (mock_status tfe tnf rff bsy_data s.dev)]⟩) := by
  have hlt : mock_status tfe tnf rff bsy_data s.dev < 2 ^ w :=
    lt_of_lt_of_le (mock_status_lt tfe tnf rff bsy_data s.dev)
      (by
        have := Nat.pow_le_pow_right (show 0 < 2 by decide) hw
        simpa using this)
  simp [mmio_read, mock_device, Nat.mod_eq_of_lt hlt]

theorem mock_read_data (base : Nat) (tfe tnf rff bsy_data : Bool) (w : Nat) (s : World Mock) :
    mmio_read (mock_device base tfe tnf rff bsy_data) w (base + SSPDR) s
      = (s.dev.rxfifo.headD 0 % 2 ^ w,
          ⟨⟨s.dev.rxfifo.tail, s.dev.regs⟩, s.trace ++ [Access.read w (base + SSPDR)
            (s.dev.rxfifo.headD 0 % 2 ^ w)]⟩) := by
  have hne : ¬ SSPDR = SSPSR := by decide
  simp [mmio_read, mock_device, hne]

theorem rx_inner_mono {σ : Type} (D : Device σ) (w : Nat) (pd : pl022_data) (n : Nat) :
    ∀ (fuel j : Nat) (rdat : Nat → Nat) (s : World σ) (res : Nat × (Nat → Nat) × World σ),
      rx_inner D w pd n fuel j rdat s = some res →
      rx_inner D w pd n (fuel + 1) j rdat s = some res := by
  intro fuel
  induction fuel with
  | zero => intro j rdat s res h; simp [rx_inner] at h
  | succ fuel ih =>
    intro j rdat s res h
    rw [rx_inner] at h ⊢
    dsimp only at h ⊢
    by_cases hc : (read8 D (pd.base + SSPSR) s).1 &&& SSPSR_RNE ≠ 0 ∧ j < n
    · rw [if_pos hc] at h ⊢
      exact ih _ _ _ _ h
    · rw [if_neg hc] at h ⊢
      exact h

theorem rx_drain_mono {σ : Type} (D : Device σ) (w : Nat) (pd : pl022_data) (n : Nat) :
    ∀ (fuel j : Nat) (rdat : Nat → Nat) (s : World σ) (res : Nat × (Nat → Nat) × World σ),
      rx_drain D w pd n fuel j rdat s = some res →
      rx_drain D w pd n (fuel + 1) j rdat s = some res := by
  intro fuel
  induction fuel with
  | zero => intro j rdat s res h; simp [rx_drain] at h
  | succ fuel ih =>
    intro j rdat s res h
    rw [rx_drain] at h ⊢
    cases hin : rx_inner D w pd n fuel j rdat s with
    | none => rw [hin] at h; simp at h
    | some r =>
      obtain ⟨j2, rdat2, s2⟩ := r
      rw [hin] at h
      rw [rx_inner_mono D w pd n fuel j rdat s _ hin]
      dsimp only at h ⊢
      by_cases hc : (read8 D (pd.base + SSPSR) s2).1 &&& SSPSR_BSY ≠ 0 ∧ j2 < n
      · rw [if_pos hc] at h ⊢
        exact ih _ _ _ _ h
      · rw [if_neg hc] at h ⊢
        exact h

theorem rx_drain_mono_le {σ : Type} (D : Device σ) (w : Nat) (pd : pl022_data) (n : Nat)
    (fuel j : Nat) (rdat : Nat → Nat) (s : World σ) (res : Nat × (Nat → Nat) × World σ)
    (h : rx_drain D w pd n fuel j rdat s = some res) :
    ∀ fuel1, fuel ≤ fuel1 → rx_drain D w pd n fuel1 j rdat s = some res := by
  intro fuel1 hle
  induction hle with
  | refl => exact h
  | step _ ih => exact rx_drain_mono D w pd n _ j rdat s res ih

/-- The inner receive loop on the mock: it takes `min (length of the FIFO) (n - j)` elements, in
order, into the slots from `j` on and leaves the rest in the FIFO. -/
theorem mock_rx_inner (tfe tnf rff bsy_data : Bool) (w : Nat) (pd : pl022_data) (n : Nat) :
    ∀ (xs : List Nat) (fuel j : Nat) (rdat : Nat → Nat) (s : World Mock),
      s.dev.rxfifo = xs → (∀ x ∈ xs, x < 2 ^ w) → min xs.length (n - j) + 1 ≤ fuel →
      ∃ rdat1 s1,
        rx_inner (mock_device pd.base tfe tnf rff bsy_data) w pd n fuel j rdat s
          = some (j + min xs.length (n - j), rdat1, s1) ∧
        s1.dev.rxfifo = xs.drop (min xs.length (n - j)) ∧
        (∀ k, k < min xs.length (n - j) → rdat1 (j + k) = xs.getD k 0) ∧
        (∀ i, i < j → rdat1 i = rdat i) := by
  intro xs
  induction xs with
  | nil =>
    intro fuel j rdat s hs _ hfuel
    obtain ⟨f, rfl⟩ : ∃ f, fuel = f + 1 := ⟨fuel - 1, by omega⟩
    have hst := (mock_status_empty tfe tnf rff bsy_data s.dev hs).1
    refine ⟨rdat, (read8 (mock_device pd.base tfe tnf rff bsy_data) (pd.base + SSPSR) s).2,
      ?_, ?_, ?_, fun _ _ => rfl⟩
    · rw [rx_inner]
      dsimp only
      have hr : (read8 (mock_device pd.base tfe tnf rff bsy_data) (pd.base + SSPSR) s).1
          = mock_status tfe tnf rff bsy_data s.dev := by
        unfold read8
        rw [mock_read_status pd.base tfe tnf rff bsy_data 8 (by decide)]
      rw [hr, if_neg (by rw [hst]; simp)]
      simp
    · unfold read8
      rw [mock_read_status pd.base tfe tnf rff bsy_data 8 (by decide)]
      simpa using hs
    · intro k hk
      simp at hk
  | cons x t ih =>
    intro fuel j rdat s hs hlt hfuel
    obtain ⟨f, rfl⟩ : ∃ f, fuel = f + 1 := ⟨fuel - 1, by omega⟩
    have hne : s.dev.rxfifo ≠ [] := by rw [hs]; simp
    have hst := mock_status_nonempty tfe tnf rff bsy_data s.dev hne
    have hr : read8 (mock_device pd.base tfe tnf rff bsy_data) (pd.base + SSPSR) s
        = (mock_status tfe tnf rff bsy_data s.dev,
            ⟨s.dev, s.trace ++ [Access.read 8 (pd.base + SSPSR)
              (mock_status tfe tnf rff bsy_data s.dev)]⟩) := by
      unfold read8
      rw [mock_read_status pd.base tfe tnf rff bsy_data 8 (by decide)]
    by_cases hj : j < n
    · have hx : x < 2 ^ w := hlt x (List.mem_cons_self x t)
      have hmin : min (x :: t).length (n - j) = min t.length (n - (j + 1)) + 1 := by
        simp only [List.length_cons]
        omega
      rw [hmin] at hfuel ⊢
      rw [rx_inner]
      dsimp only
      rw [hr]
      dsimp only
      rw [if_pos ⟨hst, hj⟩, mock_read_data]
      dsimp only
      rw [hs]
      simp only [List.headD_cons, List.tail_cons]
      rw [Nat.mod_eq_of_lt hx]
      obtain ⟨rdat1, s1, e1, e2, e3, e4⟩ := ih f (j + 1) (Function.update rdat j x)
        ⟨⟨t, s.dev.regs⟩, (s.trace ++ [Access.read 8 (pd.base + SSPSR)
            (mock_status tfe tnf rff bsy_data s.dev)])
          ++ [Access.read w (pd.base + SSPDR) x]⟩ rfl
        (fun y hy => hlt y (List.mem_cons_of_mem x hy)) (by omega)
      refine ⟨rdat1, s1, ?_, ?_, ?_, ?_⟩
      · rw [e1]
        congr 2
        omega
      · rw [e2]
        simp
      · intro k hk
        cases k with
        | zero =>
          rw [Nat.add_zero, e4 j (by omega)]
          simp
        | succ k =>
          have := e3 k (by omega)
          rw [show j + (k + 1) = j + 1 + k by omega, this]
          simp
      · intro i hi
        rw [e4 i (by omega)]
        exact Function.update_noteq (by omega) _ _
    · have hmin : min (x :: t).length (n - j) = 0 := by
        have : n - j = 0 := by omega
        rw [this]
        exact Nat.min_zero _
      rw [hmin]
      refine ⟨rdat, (read8 (mock_device pd.base tfe tnf rff bsy_data) (pd.base + SSPSR) s).2,
        ?_, ?_, fun k hk => absurd hk (Nat.not_lt_zero k), fun _ _ => rfl⟩
      · rw [rx_inner]
        dsimp only
        rw [if_neg (fun hc => hj hc.2)]
        simp
      · rw [hr]
        simpa using hs

/-- The receive loop on the mock, from an empty count: one pass of the inner loop, then one
status read that ends the outer loop. -/
theorem mock_rx_drain (tfe tnf rff bsy_data : Bool) (w : Nat) (pd : pl022_data) (n : Nat)
    (xs : List Nat) (fuel : Nat) (rdat : Nat → Nat) (s : World Mock)
    (hs : s.dev.rxfifo = xs) (hlt : ∀ x ∈ xs, x < 2 ^ w) (hfuel : min xs.length n + 2 ≤ fuel) :
    ∃ rdat1 s1,
      rx_drain (mock_device pd.base tfe tnf rff bsy_data) w pd n fuel 0 rdat s
        = some (min xs.length n, rdat1, s1) ∧
      s1.dev.rxfifo = xs.drop (min xs.length n) ∧
      (∀ k, k < min xs.length n → rdat1 k = xs.getD k 0) := by
  obtain ⟨f, rfl⟩ : ∃ f, fuel = f + 1 := ⟨fuel - 1, by omega⟩
  obtain ⟨rdat1, s1, e1, e2, e3, _⟩ := mock_rx_inner tfe tnf rff bsy_data w pd n xs f 0 rdat s
    hs hlt (by rw [Nat.sub_zero]; omega)
  rw [Nat.sub_zero, Nat.zero_add] at e1
  rw [Nat.sub_zero] at e2 e3
  have hr : read8 (mock_device pd.base tfe tnf rff bsy_data) (pd.base + SSPSR) s1
      = (mock_status tfe tnf rff bsy_data s1.dev,
          ⟨s1.dev, s1.trace ++ [Access.read 8 (pd.base + SSPSR)
            (mock_status tfe tnf rff bsy_data s1.dev)]⟩) := by
    unfold read8
    rw [mock_read_status pd.base tfe tnf rff bsy_data 8 (by decide)]
  refine ⟨rdat1, (read8 (mock_device pd.base tfe tnf rff bsy_data) (pd.base + SSPSR) s1).2,
    ?_, ?_, ?_⟩
  · rw [rx_drain, e1]
    dsimp only
    have hc : ¬ ((read8 (mock_device pd.base tfe tnf rff bsy_data) (pd.base + SSPSR) s1).1
        &&& SSPSR_BSY ≠ 0 ∧ min xs.length n < n) := by
      rintro ⟨hb, hm⟩
      have hlen : xs.length < n := by omega
      have hempty : s1.dev.rxfifo = [] := by
        rw [e2, Nat.min_eq_left (le_of_lt hlen)]
        exact List.drop_length xs
      rw [hr] at hb
      exact hb (mock_status_empty tfe tnf rff bsy_data s1.dev hempty).2
    rw [if_neg hc]
  · rw [hr]
    exact e2
  · intro k hk
    have := e3 k hk
    rwa [Nat.zero_add] at this

theorem mock_flush_inner (tfe tnf rff bsy_data : Bool) (pd : pl022_data) :
    ∀ (xs : List Nat) (fuel : Nat) (regs : Nat → Nat) (tr : List Access),
      xs.length + 1 ≤ fuel →
      flush_inner (mock_device pd.base tfe tnf rff bsy_data) pd fuel ⟨⟨xs, regs⟩, tr⟩
        = some ⟨⟨[], regs⟩, tr ++ stale_reads pd.base tfe tnf rff bsy_data regs xs
            ++ [Access.read 32 (pd.base + SSPSR)
                  (mock_status tfe tnf rff bsy_data ⟨[], regs⟩)]⟩ := by
  intro xs
  induction xs with
  | nil =>
    intro fuel regs tr hfuel
    obtain ⟨f, rfl⟩ : ∃ f, fuel = f + 1 := ⟨fuel - 1, by omega⟩
    rw [flush_inner]
    unfold read32
    rw [mock_read_status pd.base tfe tnf rff bsy_data 32 (by decide)]
    dsimp only
    rw [if_neg (by rw [(mock_status_empty tfe tnf rff bsy_data ⟨[], regs⟩ rfl).1]; simp)]
    simp [stale_reads]
  | cons x t ih =>
    intro fuel regs tr hfuel
    obtain ⟨f, rfl⟩ : ∃ f, fuel = f + 1 := ⟨fuel - 1, by simp at hfuel; omega⟩
    rw [flush_inner]
    unfold read32
    rw [mock_read_status pd.base tfe tnf rff bsy_data 32 (by decide)]
    dsimp only
    rw [if_pos (mock_status_nonempty tfe tnf rff bsy_data ⟨x :: t, regs⟩ (by simp)),
      mock_read_data]
    dsimp only
    simp only [List.headD_cons, List.tail_cons]
    rw [ih f regs _ (by simp at hfuel; omega)]
    simp [stale_reads]

theorem mock_flush_fifo (tfe tnf rff bsy_data : Bool) (pd : pl022_data) (xs : List Nat)
    (fuel : Nat) (regs : Nat → Nat) (tr : List Access) (hfuel : xs.length + 2 ≤ fuel) :
    pl022_flush_fifo (mock_device pd.base tfe tnf rff bsy_data) pd fuel ⟨⟨xs, regs⟩, tr⟩
      = some ⟨⟨[], regs⟩, tr ++ stale_reads pd.base tfe tnf rff bsy_data regs xs
          ++ [Access.read 32 (pd.base + SSPSR) (mock_status tfe tnf rff bsy_data ⟨[], regs⟩),
              Access.read 32 (pd.base + SSPSR)
                (mock_status tfe tnf rff bsy_data ⟨[], regs⟩)]⟩ := by
  obtain ⟨f, rfl⟩ : ∃ f, fuel = f + 1 := ⟨fuel - 1, by omega⟩
  rw [pl022_flush_fifo, mock_flush_inner tfe tnf rff bsy_data pd xs f regs tr (by omega)]
  dsimp only
  unfold read32
  rw [mock_read_status pd.base tfe tnf rff bsy_data 32 (by decide)]
  dsimp only
  rw [if_neg (by rw [(mock_status_empty tfe tnf rff bsy_data ⟨[], regs⟩ rfl).2]; simp)]
  simp

theorem stale_reads_count (base : Nat) (tfe tnf rff bsy_data : Bool) (regs : Nat → Nat) :
    ∀ xs : List Nat,
      (data_reads base (stale_reads base tfe tnf rff bsy_data regs xs)).length = xs.length := by
  intro xs
  induction xs with
  | nil => rfl
  | cons x t ih => simp [stale_reads, data_reads, sspsr_ne_sspdr_offset, ih]

theorem mock_start (tfe tnf rff bsy_data : Bool) (pd : pl022_data) (xs : List Nat)
    (fuel : Nat) (regs : Nat → Nat) (tr : List Access) (hfuel : xs.length + 2 ≤ fuel) :
    pl022_start (mock_device pd.base tfe tnf rff bsy_data) pd fuel ⟨⟨xs, regs⟩, tr⟩
      = some ⟨⟨[], Function.update regs (pd.base + SSPCR1)
                (regs (pd.base + SSPCR1) % 256 ||| 2)⟩,
          tr ++ stale_reads pd.base tfe tnf rff bsy_data regs xs
          ++ [Access.read 32 (pd.base + SSPSR) (mock_status tfe tnf rff bsy_data ⟨[], regs⟩),
              Access.read 32 (pd.base + SSPSR) (mock_status tfe tnf rff bsy_data ⟨[], regs⟩),
              Access.read 8 (pd.base + SSPCR1) (regs (pd.base + SSPCR1) % 256),
              Access.write 8 (pd.base + SSPCR1) (regs (pd.base + SSPCR1) % 256 ||| 2)]⟩ := by
  have hv := sse_value_fin ⟨regs (pd.base + SSPCR1) % 256, Nat.mod_lt _ (by decide)⟩
  dsimp only at hv
  have h1 : ¬ SSPCR1 = SSPSR := by decide
  have h2 : ¬ SSPCR1 = SSPDR := by decide
  unfold pl022_start
  rw [mock_flush_fifo tfe tnf rff bsy_data pd xs fuel regs tr hfuel]
  dsimp only
  unfold io_mask8 io_mask
  simp only [mmio_read, mmio_write, mock_device, Nat.add_left_cancel_iff, h1, h2, if_false,
    or_self]
  rw [show (2 : Nat) ^ 8 = 256 from rfl] at hv ⊢
  rw [hv]
  simp

/-! ## Clock divisor solver: the claims -/

theorem last_visited_freq (clk_hz : Nat) :
    pl022_calc_freq clk_hz (SSP_CPSDVR_MAX - 1) (SSP_SCR_MAX - 1) = clk_hz / 64515 := rfl

theorem bound_pair_freq (clk_hz : Nat) :
    pair_freq clk_hz (SSP_CPSDVR_MAX, SSP_SCR_MAX) = clk_hz / 65024 := rfl

theorem calc_200000000 : pl022_calc_clk_divisors 200000000 1000 = (254, 255) :=
  (calc_exhausted 200000000 1000 (by rw [last_visited_freq]; decide)).2.2

/-- C1, counterexample: with `clk_hz = 255000` and `speed_hz = 1000` the pair `(3, 84)` is in
range and yields exactly 1000 Hz, but the solver returns `(128, 1)`, which yields 996 Hz. -/
theorem calc_not_closest_255000 :
    0 < 1000 ∧ 1000 ≤ 255000 / 2 ∧ 2 ≤ 3 ∧ 3 ≤ 254 ∧ 84 ≤ 255 ∧
    pl022_calc_freq 255000 3 84 = 1000 ∧
    pl022_calc_clk_divisors 255000 1000 = (128, 1) ∧
    pair_freq 255000 (pl022_calc_clk_divisors 255000 1000) = 996 ∧
    pl022_calc_freq 255000 3 84 ≤ 1000 ∧
    pair_freq 255000 (pl022_calc_clk_divisors 255000 1000) < pl022_calc_freq 255000 3 84 := by
  rw [calc_255000]
  decide

/-- C1, amended: for `0 < speed_hz ≤ clk_hz / 2`, with `f` the frequency of the returned pair.
When `clk_hz / 64515 ≤ speed_hz` (the searches stop at a visited pair): `f ≤ speed_hz`, the row
`s1` in which stage 1 stops and the column `p2` in which stage 2 stops exist, the returned pair
has `scr = s1` or prescale `p2`, and `f` is closest to `speed_hz` from below among the pairs
whose divisor product `p * (1 + s)` is a multiple of `1 + s1` or of `p2`; it is closest among
all pairs of the register ranges when `s1 = 0`, and whenever some such pair reaches `speed_hz`
with the least divisor product that does; and when such a pair yields exactly `speed_hz`, so
does the returned pair.  When `speed_hz < clk_hz / 64515` (the searches run to exhaustion): `f` is
closest from below among all pairs but `(254,253)`, `(253,255)`, `(254,254)`, which the loops
never visit. -/
theorem calc_closest_from_below (clk_hz speed_hz : Nat) (h0 : 0 < speed_hz)
    (h1 : speed_hz ≤ clk_hz / 2) :
    (clk_hz / 64515 ≤ speed_hz →
      pair_freq clk_hz (pl022_calc_clk_divisors clk_hz speed_hz) ≤ speed_hz ∧
      (∃ s1, first_row clk_hz speed_hz s1) ∧ (∃ p2, first_col clk_hz speed_hz p2) ∧
      ∀ s1 p2, first_row clk_hz speed_hz s1 → first_col clk_hz speed_hz p2 →
        ((pl022_calc_clk_divisors clk_hz speed_hz).2 = s1 ∨
          (pl022_calc_clk_divisors clk_hz speed_hz).1 = p2) ∧
        closest_among clk_hz speed_hz
          (fun p s => (1 + s1) ∣ p * (1 + s) ∨ p2 ∣ p * (1 + s)) ∧
        (s1 = 0 → closest_among clk_hz speed_hz (fun _ _ => True)) ∧
        ((∃ p s, 2 ≤ p ∧ p ≤ 254 ∧ s ≤ 255 ∧
            ((1 + s1) ∣ p * (1 + s) ∨ p2 ∣ p * (1 + s)) ∧
            pl022_calc_freq clk_hz p s ≤ speed_hz ∧
            speed_hz < clk_hz / (p * (1 + s) - 1)) →
          closest_among clk_hz speed_hz (fun _ _ => True)) ∧
        ((∃ p s, 2 ≤ p ∧ p ≤ 254 ∧ s ≤ 255 ∧
            ((1 + s1) ∣ p * (1 + s) ∨ p2 ∣ p * (1 + s)) ∧
            pl022_calc_freq clk_hz p s = speed_hz) →
          pair_freq clk_hz (pl022_calc_clk_divisors clk_hz speed_hz) = speed_hz)) ∧
    (speed_hz < clk_hz / 64515 →
      closest_among clk_hz speed_hz
        (fun p s => (p, s) ≠ (254, 253) ∧ (p, s) ≠ (253, 255) ∧ (p, s) ≠ (254, 254))) := by
  constructor
  · intro h2
    have hlast : pl022_calc_freq clk_hz (SSP_CPSDVR_MAX - 1) (SSP_SCR_MAX - 1) ≤ speed_hz := by
      rw [last_visited_freq]; exact h2
    have hfle := (calc_stopped clk_hz speed_hz hlast).2.2.2.2.2.1
    have t1 : Stopped clk_hz speed_hz (stage1 clk_hz speed_hz) ∧
        RowsAbove clk_hz speed_hz 0 (stage1 clk_hz speed_hz).scr ∧
        (∀ c, SSP_CPSDVR_MIN ≤ c → c < (stage1 clk_hz speed_hz).cpsdvr →
          speed_hz < pl022_calc_freq clk_hz c (stage1 clk_hz speed_hz).scr) := by
      rcases stage1_top clk_hz speed_hz with t | t
      · omega
      · exact ⟨t.1, t.2.2.1, t.2.2.2⟩
    obtain ⟨⟨_, a2, a3, a4, a5, a6, _⟩, hrows, hfirst1⟩ := t1
    have t2 : SSP_CPSDVR_MIN ≤ (stage2 clk_hz speed_hz).cpsdvr ∧
        (stage2 clk_hz speed_hz).cpsdvr < SSP_CPSDVR_MAX ∧
        (stage2 clk_hz speed_hz).scr < SSP_SCR_MAX ∧
        (stage2 clk_hz speed_hz).freq
          = pl022_calc_freq clk_hz (stage2 clk_hz speed_hz).cpsdvr
              (stage2 clk_hz speed_hz).scr ∧
        (stage2 clk_hz speed_hz).freq ≤ speed_hz ∧
        ColsAbove clk_hz speed_hz SSP_CPSDVR_MIN (stage2 clk_hz speed_hz).cpsdvr ∧
        (∀ s, s < (stage2 clk_hz speed_hz).scr →
          speed_hz < pl022_calc_freq clk_hz (stage2 clk_hz speed_hz).cpsdvr s) := by
      rcases stage2_top clk_hz speed_hz with t | t
      · omega
      · exact ⟨t.2.1, t.2.2.1, t.2.2.2.1, t.2.2.2.2.1, t.2.2.2.2.2.1, t.2.2.2.2.2.2.2.1,
          t.2.2.2.2.2.2.2.2⟩
    obtain ⟨b2, b3, b4, b5, b6, hcols, hfirst2⟩ := t2
    unfold SSP_CPSDVR_MIN at a2 b2
    unfold SSP_CPSDVR_MAX at a3 b3
    unfold SSP_SCR_MAX at a4 b4
    refine ⟨hfle, ⟨(stage1 clk_hz speed_hz).scr, by omega, ?_, ?_⟩,
      ⟨(stage2 clk_hz speed_hz).cpsdvr, b2, by omega, ?_, ?_⟩, ?_⟩
    · have : pl022_calc_freq clk_hz 253 (stage1 clk_hz speed_hz).scr
          ≤ pl022_calc_freq clk_hz (stage1 clk_hz speed_hz).cpsdvr
              (stage1 clk_hz speed_hz).scr :=
        pl022_calc_freq_anti _ _ _ _ _ (by omega) (Nat.mul_le_mul (by omega) (le_refl _))
      have hgoal : pl022_calc_freq clk_hz 253 (stage1 clk_hz speed_hz).scr ≤ speed_hz := by
        omega
      exact hgoal
    · by_cases hz : (stage1 clk_hz speed_hz).scr = 0
      · exact Or.inl hz
      · right
        have := hrows ((stage1 clk_hz speed_hz).scr - 1) 253 (Nat.zero_le _) (by omega)
          (by decide) (by decide)
        unfold pl022_calc_freq at this
        rwa [show 1 + ((stage1 clk_hz speed_hz).scr - 1) = (stage1 clk_hz speed_hz).scr
          by omega] at this
    · have : pl022_calc_freq clk_hz (stage2 clk_hz speed_hz).cpsdvr 254
          ≤ pl022_calc_freq clk_hz (stage2 clk_hz speed_hz).cpsdvr
              (stage2 clk_hz speed_hz).scr :=
        pl022_calc_freq_anti _ _ _ _ _ (by omega) (Nat.mul_le_mul (le_refl _) (by omega))
      have hgoal : pl022_calc_freq clk_hz (stage2 clk_hz speed_hz).cpsdvr 254 ≤ speed_hz := by
        omega
      exact hgoal
    · by_cases hz : (stage2 clk_hz speed_hz).cpsdvr = 2
      · exact Or.inl hz
      · right
        exact hcols ((stage2 clk_hz speed_hz).cpsdvr - 1) 254 (by unfold SSP_CPSDVR_MIN; omega)
          (by omega) (by decide)
    · rintro s1 p2 ⟨r1, r2, r3⟩ ⟨c1, c2, c3, c4⟩
      have hrow : (stage1 clk_hz speed_hz).scr = s1 := by
        apply stage1_row clk_hz speed_hz s1 (by unfold SSP_SCR_MAX; omega) r2
        rcases r3 with r3 | r3
        · exact Or.inl r3
        · right
          have hs1 : s1 ≠ 0 := by
            intro hz
            rw [hz, Nat.mul_zero, Nat.div_zero] at r3
            omega
          unfold pl022_calc_freq
          rw [show 1 + (s1 - 1) = s1 by omega]
          exact r3
      have hcol : (stage2 clk_hz speed_hz).cpsdvr = p2 := by
        apply stage2_col clk_hz speed_hz p2 c1 (by unfold SSP_CPSDVR_MAX; omega) c3
        rcases c4 with c4 | c4
        · exact Or.inl c4
        · exact Or.inr c4
      rw [hrow] at a5 hfirst1
      rw [hcol] at b5 hfirst2
      have hub1 : ∀ p s, 2 ≤ p → (1 + s1) ∣ p * (1 + s) →
          pl022_calc_freq clk_hz p s ≤ speed_hz →
          pl022_calc_freq clk_hz p s ≤ (stage1 clk_hz speed_hz).freq := by
        rintro p s hp ⟨m, hm⟩ hps
        have hprod : 2 ≤ p * (1 + s) := by
          have : p * 1 ≤ p * (1 + s) := Nat.mul_le_mul (le_refl _) (by omega)
          omega
        rw [a5]
        by_cases hmc : (stage1 clk_hz speed_hz).cpsdvr ≤ m
        · apply pl022_calc_freq_anti _ _ _ _ _ (by omega)
          rw [hm, Nat.mul_comm (1 + s1) m]
          exact Nat.mul_le_mul hmc (le_refl _)
        · exfalso
          have hfeq : pl022_calc_freq clk_hz p s = pl022_calc_freq clk_hz m s1 := by
            unfold pl022_calc_freq
            rw [hm, Nat.mul_comm (1 + s1) m]
          by_cases hm2 : 2 ≤ m
          · have := hfirst1 m hm2 (by omega)
            omega
          · have hm1 : m = 1 := by
              rcases Nat.lt_or_ge m 1 with hlt | hge
              · have : m = 0 := by omega
                rw [this, Nat.mul_zero] at hm
                omega
              · omega
            rw [hm1, Nat.mul_one] at hm
            have hs1 : 1 ≤ s1 := by omega
            rcases r3 with r3 | r3
            · omega
            · have hanti : clk_hz / (253 * s1) ≤ clk_hz / (p * (1 + s)) :=
                Nat.div_le_div_left (by rw [hm]; omega) (by omega)
              unfold pl022_calc_freq at hps
              omega
      have hub2 : ∀ p s, p2 ∣ p * (1 + s) → 2 ≤ p →
          pl022_calc_freq clk_hz p s ≤ speed_hz →
          pl022_calc_freq clk_hz p s ≤ (stage2 clk_hz speed_hz).freq := by
        rintro p s ⟨m, hm⟩ hp hps
        have hprod : 2 ≤ p * (1 + s) := by
          have : p * 1 ≤ p * (1 + s) := Nat.mul_le_mul (le_refl _) (by omega)
          omega
        rw [b5]
        by_cases hmc : 1 + (stage2 clk_hz speed_hz).scr ≤ m
        · apply pl022_calc_freq_anti _ _ _ _ _ (by omega)
          rw [hm]
          exact Nat.mul_le_mul (le_refl _) hmc
        · exfalso
          have hm1 : 1 ≤ m := by
            rcases Nat.lt_or_ge m 1 with hlt | hge
            · have : m = 0 := by omega
              rw [this, Nat.mul_zero] at hm
              omega
            · exact hge
          have hfeq : pl022_calc_freq clk_hz p s = pl022_calc_freq clk_hz p2 (m - 1) := by
            unfold pl022_calc_freq
            rw [hm, show 1 + (m - 1) = m by omega]
          have := hfirst2 (m - 1) (by omega)
          omega
      have hub : ∀ p s, 2 ≤ p → ((1 + s1) ∣ p * (1 + s) ∨ p2 ∣ p * (1 + s)) →
          pl022_calc_freq clk_hz p s ≤ speed_hz →
          pl022_calc_freq clk_hz p s
            ≤ pair_freq clk_hz (pl022_calc_clk_divisors clk_hz speed_hz) := by
        intro p s hp hadm hps
        rcases calc_stopped_detail clk_hz speed_hz hlast with ⟨_, _, d3⟩ | ⟨_, _, d3, d4⟩
        · omega
        · rcases hadm with hd | hd
          · exact le_trans (hub1 p s hp hd hps) d3
          · exact le_trans (hub2 p s hd hp hps) d4
      have hcl : closest_among clk_hz speed_hz
          (fun p s => (1 + s1) ∣ p * (1 + s) ∨ p2 ∣ p * (1 + s)) := by
        intro p s hp _ _ hadm hcon
        have := hub p s hp hadm hcon.1
        omega
      refine ⟨?_, hcl, ?_, ?_, ?_⟩
      · rcases calc_stopped_detail clk_hz speed_hz hlast with ⟨_, d2, _⟩ | ⟨_, d2, _, _⟩
        · left; rw [d2]; exact hrow
        · rcases d2 with d2 | d2
          · left; rw [d2]; exact hrow
          · right; rw [d2]; exact hcol
      · intro hz p s hp hp' hs _
        exact hcl p s hp hp' hs (Or.inl (by rw [hz]; exact Nat.one_dvd _))
      · rintro ⟨p, s, hp, _, _, hadm, hle, hmin⟩ q t hq _ _ _ hcon
        have hpf := hub p s hp hadm hle
        have hqprod : 2 ≤ q * (1 + t) := by
          have : q * 1 ≤ q * (1 + t) := Nat.mul_le_mul (le_refl _) (by omega)
          omega
        by_cases hlt : q * (1 + t) < p * (1 + s)
        · have : clk_hz / (p * (1 + s) - 1) ≤ clk_hz / (q * (1 + t)) :=
            Nat.div_le_div_left (by omega) (by omega)
          have hq' := hcon.1
          unfold pl022_calc_freq at hq'
          omega
        · have : pl022_calc_freq clk_hz q t ≤ pl022_calc_freq clk_hz p s :=
            pl022_calc_freq_anti _ _ _ _ _ (by omega) (by omega)
          omega
      · rintro ⟨p, s, hp, _, _, hadm, heq⟩
        have := hub p s hp hadm (le_of_eq heq)
        omega
  · intro h2
    have hex := (calc_exhausted clk_hz speed_hz (by rw [last_visited_freq]; exact h2)).2.2
    intro p s hp hp' hs hadm hcon
    obtain ⟨n1, n2, n3⟩ := hadm
    rw [hex, bound_pair_freq] at hcon
    have hsmall : p * (1 + s) ≤ 64515 → False := by
      intro hle
      have : clk_hz / 64515 ≤ pl022_calc_freq clk_hz p s := by
        unfold pl022_calc_freq
        exact Nat.div_le_div_left hle (Nat.mul_pos (by omega) (by omega))
      omega
    by_cases hin : p ≤ 253 ∧ s ≤ 254
    · exact hsmall (by
        have := Nat.mul_le_mul hin.1 (show 1 + s ≤ 255 by omega)
        omega)
    · by_cases hp254 : p = 254
      · subst hp254
        by_cases hs252 : s ≤ 252
        · exact hsmall (by omega)
        · have hs3 : s = 253 ∨ s = 254 ∨ s = 255 := by omega
          rcases hs3 with h | h | h
          · subst h; exact n1 rfl
          · subst h; exact n3 rfl
          · subst h
            have : pl022_calc_freq clk_hz 254 255 = clk_hz / 65024 := rfl
            omega
      · have hs255 : s = 255 := by omega
        subst hs255
        by_cases hp252 : p ≤ 252
        · exact hsmall (by omega)
        · have hp3 : p = 253 := by omega
          subst hp3
          exact n2 rfl

/-- C1, amended, at three inputs.  For `clk_hz = 50000000`, `speed_hz = 1000000` stage 1 stops
in row `s1 = 0` and the result gives exactly 1000000.  For `speed_hz = 100000` it stops in row
`s1 = 1`; the pair `(250, 1)` has an even divisor product and gives exactly 100000, and so does
the result.  For `clk_hz = 508000`, `speed_hz = 1000` stage 1 stops in row `s1 = 2` at 996 Hz,
stage 2 in column `p2 = 2`; the pair `(2, 253)` gives exactly 1000, and so does the result. -/
theorem calc_closest_from_below_witness :
    (0 < 1000000 ∧ 1000000 ≤ 50000000 / 2 ∧ 50000000 / 64515 ≤ 1000000 ∧
      first_row 50000000 1000000 0 ∧ first_col 50000000 1000000 2 ∧
      pair_freq 50000000 (pl022_calc_clk_divisors 50000000 1000000) = 1000000) ∧
    (0 < 100000 ∧ 100000 ≤ 50000000 / 2 ∧ 50000000 / 64515 ≤ 100000 ∧
      first_row 50000000 100000 1 ∧ first_col 50000000 100000 2 ∧
      pair_freq 50000000 (pl022_calc_clk_divisors 50000000 100000) = 100000) ∧
    (0 < 1000 ∧ 1000 ≤ 508000 / 2 ∧ 508000 / 64515 ≤ 1000 ∧
      first_row 508000 1000 2 ∧ first_col 508000 1000 2 ∧
      pair_freq 508000 (pl022_calc_clk_divisors 508000 1000) = 1000) :=
  have r1 : first_row 50000000 1000000 0 := by unfold first_row; decide
  have c1 : first_col 50000000 1000000 2 := by unfold first_col; decide
  have r2 : first_row 50000000 100000 1 := by unfold first_row; decide
  have c2 : first_col 50000000 100000 2 := by unfold first_col; decide
  have r3 : first_row 508000 1000 2 := by unfold first_row; decide
  have c3 : first_col 508000 1000 2 := by unfold first_col; decide
  ⟨⟨by decide, by decide, by decide, r1, c1,
      (((calc_closest_from_below 50000000 1000000 (by decide) (by decide)).1
          (by decide)).2.2.2 0 2 r1 c1).2.2.2.2
        ⟨50, 0, by decide, by decide, by decide, Or.inl (by decide), by decide⟩⟩,
    ⟨by decide, by decide, by decide, r2, c2,
      (((calc_closest_from_below 50000000 100000 (by decide) (by decide)).1
          (by decide)).2.2.2 1 2 r2 c2).2.2.2.2
        ⟨250, 1, by decide, by decide, by decide, Or.inl (by decide), by decide⟩⟩,
    ⟨by decide, by decide, by decide, r3, c3,
      (((calc_closest_from_below 508000 1000 (by decide) (by decide)).1
          (by decide)).2.2.2 2 2 r3 c3).2.2.2.2
        ⟨2, 253, by decide, by decide, by decide, Or.inr (by decide), by decide⟩⟩⟩

/-- C2, counterexample: with `clk_hz = 200000000` and `speed_hz = 1000` (so
`0 < speed_hz ≤ clk_hz / 2`) both searches run to exhaustion, the pair `(254, 255)` is returned
and its frequency 3075 exceeds `speed_hz`. -/
theorem calc_overspeed_200000000 :
    0 < 1000 ∧ 1000 ≤ 200000000 / 2 ∧
    pl022_calc_clk_divisors 200000000 1000 = (254, 255) ∧
    pair_freq 200000000 (pl022_calc_clk_divisors 200000000 1000) = 3075 ∧
    ¬ pair_freq 200000000 (pl022_calc_clk_divisors 200000000 1000) ≤ 1000 := by
  rw [calc_200000000]
  decide

/-- C2, amended: when `0 < speed_hz ≤ clk_hz / 2` and `clk_hz / 65024 ≤ speed_hz`
(`65024 = 254 * 256` is the largest divisor product of the register ranges), the frequency of
the returned pair does not exceed `speed_hz`. -/
theorem calc_freq_le_speed (clk_hz speed_hz : Nat) (h0 : 0 < speed_hz)
    (h1 : speed_hz ≤ clk_hz / 2) (h2 : clk_hz / 65024 ≤ speed_hz) :
    pair_freq clk_hz (pl022_calc_clk_divisors clk_hz speed_hz) ≤ speed_hz := by
  by_cases h : pl022_calc_freq clk_hz (SSP_CPSDVR_MAX - 1) (SSP_SCR_MAX - 1) ≤ speed_hz
  · exact (calc_stopped clk_hz speed_hz h).2.2.2.2.2.1
  · rw [(calc_exhausted clk_hz speed_hz (by omega)).2.2, bound_pair_freq]
    exact h2

/-- C2, amended, at an input where both searches run to exhaustion
(`6451500 / 64515 = 100 > 99`). -/
theorem calc_freq_le_speed_witness :
    0 < 99 ∧ 99 ≤ 6451500 / 2 ∧ 6451500 / 65024 ≤ 99 ∧
    pair_freq 6451500 (pl022_calc_clk_divisors 6451500 99) ≤ 99 :=
  ⟨by decide, by decide, by decide,
    calc_freq_le_speed 6451500 99 (by decide) (by decide) (by decide)⟩

/-- C3: for `0 < speed_hz ≤ clk_hz / 2` the returned prescale lies in `[2,254]` and the returned
`scr` in `[0,255]`; the prescale is never 0 or 1, whichever candidate is selected and also when
the searches run to exhaustion (then `(254, 255)` is returned). -/
theorem calc_divisors_in_range (clk_hz speed_hz : Nat) (h0 : 0 < speed_hz)
    (h1 : speed_hz ≤ clk_hz / 2) :
    2 ≤ (pl022_calc_clk_divisors clk_hz speed_hz).1 ∧
    (pl022_calc_clk_divisors clk_hz speed_hz).1 ≤ 254 ∧
    0 ≤ (pl022_calc_clk_divisors clk_hz speed_hz).2 ∧
    (pl022_calc_clk_divisors clk_hz speed_hz).2 ≤ 255 ∧
    (pl022_calc_clk_divisors clk_hz speed_hz).1 ≠ 0 ∧
    (pl022_calc_clk_divisors clk_hz speed_hz).1 ≠ 1 ∧
    (((stage1 clk_hz speed_hz).exit = Exit.exhausted ∨
        (stage2 clk_hz speed_hz).exit = Exit.exhausted) →
      pl022_calc_clk_divisors clk_hz speed_hz = (254, 255)) := by
  by_cases h : pl022_calc_freq clk_hz (SSP_CPSDVR_MAX - 1) (SSP_SCR_MAX - 1) ≤ speed_hz
  · obtain ⟨⟨s1, _⟩, _, r1, r2, r3, _, _⟩ := calc_stopped clk_hz speed_hz h
    unfold SSP_CPSDVR_MIN at r1
    unfold SSP_CPSDVR_MAX at r2
    unfold SSP_SCR_MAX at r3
    refine ⟨r1, by omega, Nat.zero_le _, by omega, by omega, by omega, ?_⟩
    rintro (he | he)
    · exact absurd he s1
    · rcases stage2_top clk_hz speed_hz with t | t
      · omega
      · rw [t.1] at he
        exact absurd he (by decide)
  · have hr := (calc_exhausted clk_hz speed_hz (by omega)).2.2
    rw [hr]
    refine ⟨by decide, by decide, by decide, by decide, by decide, by decide, fun _ => rfl⟩

/-- C3 at an input where both searches run to exhaustion. -/
theorem calc_divisors_in_range_witness :
    0 < 1000 ∧ 1000 ≤ 200000000 / 2 ∧
    2 ≤ (pl022_calc_clk_divisors 200000000 1000).1 ∧
    (pl022_calc_clk_divisors 200000000 1000).1 ≤ 254 ∧
    (pl022_calc_clk_divisors 200000000 1000).2 ≤ 255 :=
  have h := calc_divisors_in_range 200000000 1000 (by decide) (by decide)
  ⟨by decide, by decide, h.1, h.2.1, h.2.2.2.1⟩

/-- C10: for `0 < speed_hz ≤ clk_hz / 2` and `clk_hz / 64515 ≤ speed_hz`, stage 1 leaves its
loops at a visited pair, stage 2 (which runs when stage 1 left by `goto stage2`) does too, the
returned pair has prescale in `[2,253]` and `scr` in `[0,254]`, and its frequency is
`≤ speed_hz`. -/
theorem calc_stops_at_visited_pair (clk_hz speed_hz : Nat) (h0 : 0 < speed_hz)
    (h1 : speed_hz ≤ clk_hz / 2) (h2 : clk_hz / 64515 ≤ speed_hz) :
    (stage1 clk_hz speed_hz).exit ≠ Exit.exhausted ∧
    2 ≤ (stage1 clk_hz speed_hz).cpsdvr ∧ (stage1 clk_hz speed_hz).cpsdvr ≤ 253 ∧
    (stage1 clk_hz speed_hz).scr ≤ 254 ∧
    ((stage1 clk_hz speed_hz).exit = Exit.stage2 →
      (stage2 clk_hz speed_hz).exit = Exit.done ∧
      2 ≤ (stage2 clk_hz speed_hz).cpsdvr ∧ (stage2 clk_hz speed_hz).cpsdvr ≤ 253 ∧
      (stage2 clk_hz speed_hz).scr ≤ 254) ∧
    2 ≤ (pl022_calc_clk_divisors clk_hz speed_hz).1 ∧
    (pl022_calc_clk_divisors clk_hz speed_hz).1 ≤ 253 ∧
    (pl022_calc_clk_divisors clk_hz speed_hz).2 ≤ 254 ∧
    pair_freq clk_hz (pl022_calc_clk_divisors clk_hz speed_hz) ≤ speed_hz := by
  have hlast : pl022_calc_freq clk_hz (SSP_CPSDVR_MAX - 1) (SSP_SCR_MAX - 1) ≤ speed_hz := by
    rw [last_visited_freq]; exact h2
  obtain ⟨⟨s1, s2, s3, s4, _⟩, hs2, r1, r2, r3, r4, _⟩ := calc_stopped clk_hz speed_hz hlast
  unfold SSP_CPSDVR_MIN at s2 r1
  unfold SSP_CPSDVR_MAX at s3 r2
  unfold SSP_SCR_MAX at s4 r3
  refine ⟨s1, s2, by omega, by omega, ?_, r1, by omega, by omega, r4⟩
  intro he
  rcases stage2_top clk_hz speed_hz with t | t
  · omega
  · obtain ⟨t1, t2, t3, t4, _⟩ := t
    unfold SSP_CPSDVR_MIN at t2
    unfold SSP_CPSDVR_MAX at t3
    unfold SSP_SCR_MAX at t4
    exact ⟨t1, t2, by omega, by omega⟩

/-- C10 at the spec's example `clk_hz = 50000000`, `speed_hz = 1000000`. -/
theorem calc_stops_at_visited_pair_witness :
    0 < 1000000 ∧ 1000000 ≤ 50000000 / 2 ∧ 50000000 / 64515 ≤ 1000000 ∧
    (stage1 50000000 1000000).exit ≠ Exit.exhausted ∧
    pair_freq 50000000 (pl022_calc_clk_divisors 50000000 1000000) ≤ 1000000 :=
  have h := calc_stops_at_visited_pair 50000000 1000000 (by decide) (by decide) (by decide)
  ⟨by decide, by decide, by decide, h.1, h.2.2.2.2.2.2.2.2⟩

/-! ## Configuration: the claims -/

/-- C4, counterexample: with asserts compiled in, an instance that meets every precondition the
claim lists (base set, clock set, `0 < speed_hz ≤ clk_hz / 2`, mode 0, 8-bit data) but whose
chip-select GPIO base is unset halts at the fourth assert of `pl022_sanity_check`. -/
theorem configure_halts_without_cs_base :
    (instance_without_cs_base.base ≠ 0 ∧ instance_without_cs_base.clk_hz ≠ 0 ∧
      0 < instance_without_cs_base.speed_hz ∧
      instance_without_cs_base.speed_hz ≤ instance_without_cs_base.clk_hz / 2 ∧
      instance_without_cs_base.mode = 0 ∧ instance_without_cs_base.data_size_bits = 8) ∧
    fatal_of (pl022_configure (mock_device 0x1000 true true false false) ⟨false, false, false⟩
      instance_without_cs_base ⟨⟨[], fun _ => 0⟩, []⟩)
      = some (Fatal.assert_failed 4) :=
  ⟨by decide, rfl⟩

/-- C4, amended: in every build and on every device, `pl022_configure` halts for every instance
whose mode is not one of 0, 1, 2, 3 and for every instance whose data size is not 8 or 16, and it
does not halt for any instance that has base set, chip-select GPIO base set, clock set,
`0 < speed_hz ≤ clk_hz / 2`, mode in `{0,1,2,3}` and data size in `{8,16}`. -/
theorem configure_halts_iff_invalid {σ : Type} (D : Device σ) (b : Build) (pd : pl022_data)
    (s : World σ) :
    (¬ pd.mode ≤ 3 → ∃ e, pl022_configure D b pd s = Except.error e) ∧
    (¬ (pd.data_size_bits = 8 ∨ pd.data_size_bits = 16) →
      ∃ e, pl022_configure D b pd s = Except.error e) ∧
    (pd.base ≠ 0 ∧ pd.cs_gpio_base ≠ 0 ∧ pd.clk_hz ≠ 0 ∧ 0 < pd.speed_hz ∧
        pd.speed_hz ≤ pd.clk_hz / 2 ∧ pd.mode ≤ 3 ∧
        (pd.data_size_bits = 8 ∨ pd.data_size_bits = 16) →
      ∃ s1, pl022_configure D b pd s = Except.ok s1) := by
  refine ⟨?_, ?_, ?_⟩
  · intro h
    exact configure_halts_of_bad_switch D b pd s (Or.inl ((mode_bits_none_iff _).mpr h))
  · intro h
    exact configure_halts_of_bad_switch D b pd s (Or.inr ((data_size_code_none_iff _).mpr h))
  · intro h
    exact configure_returns D b pd s h

/-- C5: for every valid instance, in every build and on every device, `pl022_configure` returns
and its accesses are, after diagnostic reads only: a 16-bit read-modify-write of SSPCR0 storing
`(scr << 8) | modebits | dss` (frame-format field 0), an 8-bit read-modify-write of SSPCR1
storing the previous upper four bits and the loopback bit alone in the lower four, a
read-modify-write of SSPCPSR storing the prescale, a read-modify-write of SSPIMSC clearing the
lower four bits, then chip-select direction out and chip-select level high. -/
theorem configure_programs_registers {σ : Type} (D : Device σ) (b : Build) (pd : pl022_data)
    (s : World σ) (hv : valid_instance pd) :
    ∃ s1 pre v0 v1 v2 v3,
      pl022_configure D b pd s = Except.ok s1 ∧
      (∀ a ∈ pre, is_read a = true) ∧ v1 < 256 ∧ v3 < 256 ∧
      s1.trace = s.trace ++ pre ++
        [Access.read 16 (pd.base + SSPCR0) v0,
         Access.write 16 (pd.base + SSPCR0)
           (((pl022_calc_clk_divisors pd.clk_hz pd.speed_hz).2 <<< 8)
              ||| spec_mode_bits pd.mode ||| spec_dss pd.data_size_bits),
         Access.read 8 (pd.base + SSPCR1) v1,
         Access.write 8 (pd.base + SSPCR1) (v1 / 16 * 16 + (if pd.loopback then 1 else 0)),
         Access.read 8 (pd.base + SSPCPSR) v2,
         Access.write 8 (pd.base + SSPCPSR) (pl022_calc_clk_divisors pd.clk_hz pd.speed_hz).1,
         Access.read 8 (pd.base + SSPIMSC) v3,
         Access.write 8 (pd.base + SSPIMSC) (v3 / 16 * 16),
         Access.gpio_set_direction pd.cs_gpio_pin GpioDir.GPIO_DIR_OUT,
         Access.gpio_set_value pd.cs_gpio_pin GpioLevel.GPIO_LEVEL_HIGH] ∧
      ((((pl022_calc_clk_divisors pd.clk_hz pd.speed_hz).2 <<< 8)
          ||| spec_mode_bits pd.mode ||| spec_dss pd.data_size_bits) / 16) % 4 = 0 := by
  have hfa := (valid_instance_iff pd).mp hv
  obtain ⟨_, _, _, _, _, hmode, hds⟩ := hv
  obtain ⟨c1, c2, c3⟩ := calc_in_range pd.clk_hz pd.speed_hz
  obtain ⟨s1, pre, hs, htr, hpre⟩ := sanity_check_ok D b pd s (Or.inr hfa)
  have hcr0 := cr0_value_fin ⟨(pl022_calc_clk_divisors pd.clk_hz pd.speed_hz).2, by omega⟩
    ⟨pd.mode, by omega⟩ (decide (pd.data_size_bits = 8))
  have hdss : (if decide (pd.data_size_bits = 8) = true then 0x7 else 0xF)
      = spec_dss pd.data_size_bits := by
    unfold spec_dss; simp
  rw [hdss] at hcr0
  dsimp only at hcr0
  unfold pl022_configure
  rw [hs]
  dsimp only
  rw [mode_bits_some pd.mode hmode]
  dsimp only
  rw [data_size_code_some pd.data_size_bits hds]
  dsimp only
  unfold io_mask16 io_mask8
  obtain ⟨v0, hv0, e0⟩ := io_mask_trace D 16 (pd.base + SSPCR0)
    (SHIFT_U32 (pl022_calc_clk_divisors pd.clk_hz pd.speed_hz).2 8
      ||| (mode_bits pd.mode).getD 0 ||| SSPCR0_FRF_SPI
      ||| (if decide (pd.data_size_bits = 8) = true then PL022_DATA_SIZE8
            else PL022_DATA_SIZE16)) MASK_16 s1
  generalize io_mask D 16 (pd.base + SSPCR0)
    (SHIFT_U32 (pl022_calc_clk_divisors pd.clk_hz pd.speed_hz).2 8
      ||| (mode_bits pd.mode).getD 0 ||| SSPCR0_FRF_SPI
      ||| (if decide (pd.data_size_bits = 8) = true then PL022_DATA_SIZE8
            else PL022_DATA_SIZE16)) MASK_16 s1 = s2 at e0 ⊢
  obtain ⟨v1, hv1, e1⟩ := io_mask_trace D 8 (pd.base + SSPCR1)
    (SSPCR1_SOD_DISABLE ||| SSPCR1_MS_MASTER ||| SSPCR1_SSE_DISABLE
      ||| (if pd.loopback = true then SSPCR1_LBM_YES else SSPCR1_LBM_NO)) MASK_4 s2
  generalize io_mask D 8 (pd.base + SSPCR1)
    (SSPCR1_SOD_DISABLE ||| SSPCR1_MS_MASTER ||| SSPCR1_SSE_DISABLE
      ||| (if pd.loopback = true then SSPCR1_LBM_YES else SSPCR1_LBM_NO)) MASK_4 s2 = s3 at e1 ⊢
  obtain ⟨v2, hv2, e2⟩ := io_mask_trace D 8 (pd.base + SSPCPSR)
    (pl022_calc_clk_divisors pd.clk_hz pd.speed_hz).1 SSPCPSR_CPSDVR s3
  generalize io_mask D 8 (pd.base + SSPCPSR)
    (pl022_calc_clk_divisors pd.clk_hz pd.speed_hz).1 SSPCPSR_CPSDVR s3 = s4 at e2 ⊢
  obtain ⟨v3, hv3, e3⟩ := io_mask_trace D 8 (pd.base + SSPIMSC) 0 MASK_4 s4
  generalize io_mask D 8 (pd.base + SSPIMSC) 0 MASK_4 s4 = s5 at e3 ⊢
  have hcr1 := cr1_value_fin ⟨v1, hv1⟩ pd.loopback
  have himsc := imsc_value_fin ⟨v3, hv3⟩
  dsimp only at hcr1 himsc
  rw [masked16_full, hcr0.1] at e0
  rw [hcr1] at e1
  rw [masked8_full] at e2
  have hc256 : (pl022_calc_clk_divisors pd.clk_hz pd.speed_hz).1 % 256
      = (pl022_calc_clk_divisors pd.clk_hz pd.speed_hz).1 := Nat.mod_eq_of_lt (by omega)
  rw [hc256] at e2
  rw [himsc] at e3
  refine ⟨_, pre, v0, v1, v2, v3, rfl, hpre, hv1, hv3, ?_, hcr0.2⟩
  simp only [gpio_set_value, gpio_set_direction]
  rw [e3, e2, e1, e0, htr]
  simp

/-- C5 at a concrete instance (mode 3, 16-bit data, loopback) on the register mock. -/
theorem configure_programs_registers_witness :
    valid_instance ⟨0x1000, 0x2000, 5, 50000000, 1000000, 3, 16, true⟩ ∧
    ∃ s1, pl022_configure (mock_device 0x1000 true true false false) ⟨false, true, true⟩
      ⟨0x1000, 0x2000, 5, 50000000, 1000000, 3, 16, true⟩ ⟨⟨[], fun _ => 0xAB⟩, []⟩
        = Except.ok s1 :=
  have hv : valid_instance ⟨0x1000, 0x2000, 5, 50000000, 1000000, 3, 16, true⟩ := by
    unfold valid_instance; decide
  ⟨hv, (configure_programs_registers (mock_device 0x1000 true true false false)
      ⟨false, true, true⟩ ⟨0x1000, 0x2000, 5, 50000000, 1000000, 3, 16, true⟩
      ⟨⟨[], fun _ => 0xAB⟩, []⟩ hv).imp (fun _ h => by
        obtain ⟨_, _, _, _, _, h1, _⟩ := h
        exact h1)⟩

/-! ## Transfer engine: the claims -/

/-- C6: for both element widths (`pl022_tx8`, `pl022_tx16`), every buffer of `n` elements of
that width and every device on which the transmit-FIFO-not-full bit is eventually observed set
for each element: with enough polling budget the call returns, and its accesses are chip-select
low, then status reads and exactly `n` data-register writes, the `k`-th carrying `wdat k` and
each directly after a status read with the not-full bit set, then chip-select high; for `n = 0`
just chip-select low and chip-select high. -/
theorem transmit_trace {σ : Type} (D : Device σ) (w : Nat) (pd : pl022_data) (wdat : Nat → Nat)
    (n : Nat) (s : World σ) (hw : w = 8 ∨ w = 16) (hbuf : ∀ k, k < n → wdat k < 2 ^ w)
    (hlive : TxLive D w pd wdat n 0
      (D.gpio_value pd.cs_gpio_pin GpioLevel.GPIO_LEVEL_LOW s.dev)) :
    ∃ s1 mid fuel0,
      (∀ fuel, fuel0 ≤ fuel →
        (w = 8 → pl022_tx8 D pd wdat n fuel s = some s1) ∧
        (w = 16 → pl022_tx16 D pd wdat n fuel s = some s1)) ∧
      s1.trace = s.trace ++ [Access.gpio_set_value pd.cs_gpio_pin GpioLevel.GPIO_LEVEL_LOW]
        ++ mid ++ [Access.gpio_set_value pd.cs_gpio_pin GpioLevel.GPIO_LEVEL_HIGH] ∧
      FillTrace w pd.base wdat n 0 mid ∧
      data_writes pd.base mid = (List.range n).map wdat ∧
      (∀ a ∈ mid, is_status_read pd.base a = true ∨ is_data_write pd.base a = true) ∧
      (n = 0 → mid = []) := by
  obtain ⟨fuel0, s2, hrun⟩ := tx_fill_live D w pd wdat n n 0
    (gpio_set_value D pd.cs_gpio_pin GpioLevel.GPIO_LEVEL_LOW s) (by omega) hlive
  obtain ⟨mid, htr, hfill⟩ := tx_fill_trace D w pd wdat n _ _ _ _ hrun
  obtain ⟨hwr, _, hmem⟩ := fill_trace_writes w pd.base wdat n 0 mid hfill
  have hall : ∀ fuel, fuel0 ≤ fuel → pl022_tx D w pd wdat n fuel s
      = some (gpio_set_value D pd.cs_gpio_pin GpioLevel.GPIO_LEVEL_HIGH s2) := by
    intro fuel hle
    unfold pl022_tx
    dsimp only
    rw [tx_fill_mono_le D w pd wdat n _ _ _ _ hrun fuel hle]
  refine ⟨gpio_set_value D pd.cs_gpio_pin GpioLevel.GPIO_LEVEL_HIGH s2, mid, fuel0, ?_, ?_,
    hfill, ?_, hmem, ?_⟩
  · intro fuel hle
    constructor
    · intro h8
      subst h8
      exact hall fuel hle
    · intro h16
      subst h16
      exact hall fuel hle
  · simp [gpio_set_value, htr]
  · rw [hwr, List.range_eq_range', Nat.sub_zero]
    apply List.map_congr_left
    intro k hk
    have hk2 : k < n := by
      have := (List.mem_range'_1.mp hk).2
      omega
    exact Nat.mod_eq_of_lt (hbuf k hk2)
  · intro hn
    subst hn
    exact fill_trace_zero w pd.base wdat mid hfill

/-- C6 at a concrete run: two bytes sent with `pl022_tx8` on the register mock, whose not-full
bit is always set. -/
theorem transmit_trace_witness :
    ∃ s1 mid fuel0,
      (∀ fuel, fuel0 ≤ fuel →
        pl022_tx8 (mock_device 0x1000 true true false false)
          ⟨0x1000, 0x2000, 5, 50000000, 1000000, 0, 8, false⟩ (fun k => k + 1) 2 fuel
          ⟨⟨[], fun _ => 0⟩, []⟩ = some s1) ∧
      s1.trace = [Access.gpio_set_value 5 GpioLevel.GPIO_LEVEL_LOW] ++ mid
        ++ [Access.gpio_set_value 5 GpioLevel.GPIO_LEVEL_HIGH] ∧
      data_writes 0x1000 mid = [1, 2] := by
  have hlive : TxLive (mock_device 0x1000 true true false false) 8
      ⟨0x1000, 0x2000, 5, 50000000, 1000000, 0, 8, false⟩ (fun k => k + 1) 2 0
      ((mock_device 0x1000 true true false false).gpio_value 5 GpioLevel.GPIO_LEVEL_LOW
        ⟨[], fun _ => 0⟩) :=
    ⟨0, fun j hj => absurd hj (Nat.not_lt_zero j), by decide,
      ⟨0, fun j hj => absurd hj (Nat.not_lt_zero j), by decide, trivial⟩⟩
  obtain ⟨s1, mid, fuel0, h1, h2, _, h4, _⟩ :=
    transmit_trace (mock_device 0x1000 true true false false) 8
      ⟨0x1000, 0x2000, 5, 50000000, 1000000, 0, 8, false⟩ (fun k => k + 1) 2
      ⟨⟨[], fun _ => 0⟩, []⟩ (Or.inl rfl) (by intro k hk; interval_cases k <;> decide) hlive
  exact ⟨s1, mid, fuel0, fun fuel hle => (h1 fuel hle).1 rfl, by simpa using h2, h4⟩

/-- C8: for both element widths (`pl022_txrx8`, `pl022_txrx16`), every transmit buffer of `n`
elements of that width, every receive quota and every device: whenever the call returns, its
accesses are chip-select low once, then the fill part (status reads and the `n` data-register
writes carrying `wdat 0 .. wdat (n-1)` in order, no data-register read), then the drain part
(status reads and data-register reads only), then chip-select high once; the reported receive
count is the number of data-register reads and is at most the quota. -/
theorem exchange_trace {σ : Type} (D : Device σ) (w : Nat) (pd : pl022_data)
    (wdat rdat : Nat → Nat) (n max_rx fuel : Nat) (s : World σ) (cnt : Nat)
    (rdat1 : Nat → Nat) (s1 : World σ) (hbuf : ∀ k, k < n → wdat k < 2 ^ w)
    (hrun : (w = 8 ∧ pl022_txrx8 D pd wdat rdat n max_rx fuel s = some (cnt, rdat1, s1)) ∨
      (w = 16 ∧ pl022_txrx16 D pd wdat rdat n max_rx fuel s = some (cnt, rdat1, s1))) :
    ∃ txpart rxpart,
      s1.trace = s.trace ++ [Access.gpio_set_value pd.cs_gpio_pin GpioLevel.GPIO_LEVEL_LOW]
        ++ txpart ++ rxpart
        ++ [Access.gpio_set_value pd.cs_gpio_pin GpioLevel.GPIO_LEVEL_HIGH] ∧
      FillTrace w pd.base wdat n 0 txpart ∧
      data_writes pd.base txpart = (List.range n).map wdat ∧
      data_reads pd.base txpart = [] ∧
      (∀ a ∈ txpart, is_status_read pd.base a = true ∨ is_data_write pd.base a = true) ∧
      data_writes pd.base rxpart = [] ∧
      (∀ a ∈ rxpart, is_status_read pd.base a = true ∨ is_data_read pd.base a = true) ∧
      cnt = (data_reads pd.base rxpart).length ∧
      cnt ≤ max_rx := by
  have hgen : pl022_txrx D w pd wdat rdat n max_rx fuel s = some (cnt, rdat1, s1) := by
    rcases hrun with ⟨h8, h⟩ | ⟨h16, h⟩
    · subst h8; exact h
    · subst h16; exact h
  unfold pl022_txrx at hgen
  dsimp only at hgen
  cases htx : tx_fill D w pd wdat n fuel 0
      (gpio_set_value D pd.cs_gpio_pin GpioLevel.GPIO_LEVEL_LOW s) with
  | none => rw [htx] at hgen; simp at hgen
  | some s2 =>
    rw [htx] at hgen
    dsimp only at hgen
    cases hrx : rx_drain D w pd max_rx fuel 0 rdat s2 with
    | none => rw [hrx] at hgen; simp at hgen
    | some res =>
      obtain ⟨j, rdat2, s3⟩ := res
      rw [hrx] at hgen
      simp only [Option.some.injEq, Prod.mk.injEq] at hgen
      obtain ⟨hj, _, hs⟩ := hgen
      subst hj
      subst hs
      obtain ⟨txpart, e1, hfill⟩ := tx_fill_trace D w pd wdat n _ _ _ _ htx
      obtain ⟨rxpart, e2, hmem, hcnt, hle⟩ := rx_drain_trace D w pd max_rx _ _ _ _ _ _ _ hrx
      obtain ⟨hwr, hrd, htxmem⟩ := fill_trace_writes w pd.base wdat n 0 txpart hfill
      refine ⟨txpart, rxpart, ?_, hfill, ?_, hrd, htxmem,
        data_writes_of_reads pd.base rxpart hmem, hmem, by omega, hle (Nat.zero_le _)⟩
      · simp [gpio_set_value, e2, e1]
      · rw [hwr, List.range_eq_range', Nat.sub_zero]
        apply List.map_congr_left
        intro k hk
        have hk2 : k < n := by
          have := (List.mem_range'_1.mp hk).2
          omega
        exact Nat.mod_eq_of_lt (hbuf k hk2)

/-- C8 at a concrete run: `pl022_txrx8` sends two bytes to the register mock, whose receive
FIFO holds two elements, with a receive quota of five. -/
theorem exchange_trace_witness :
    ∃ cnt rdat1 s1 txpart rxpart,
      pl022_txrx8 (mock_device 0x1000 true true false false)
        ⟨0x1000, 0x2000, 5, 50000000, 1000000, 0, 8, false⟩ (fun k => k + 1) (fun _ => 0)
        2 5 10 ⟨⟨[7, 9], fun _ => 0⟩, []⟩ = some (cnt, rdat1, s1) ∧
      s1.trace = [Access.gpio_set_value 5 GpioLevel.GPIO_LEVEL_LOW] ++ txpart ++ rxpart
        ++ [Access.gpio_set_value 5 GpioLevel.GPIO_LEVEL_HIGH] ∧
      data_writes 0x1000 txpart = [1, 2] ∧ data_reads 0x1000 txpart = [] ∧
      cnt = (data_reads 0x1000 rxpart).length ∧ cnt ≤ 5 := by
  have hsome : (pl022_txrx8 (mock_device 0x1000 true true false false)
      ⟨0x1000, 0x2000, 5, 50000000, 1000000, 0, 8, false⟩ (fun k => k + 1) (fun _ => 0)
      2 5 10 ⟨⟨[7, 9], fun _ => 0⟩, []⟩).isSome = true := by decide
  obtain ⟨⟨cnt, rdat1, s1⟩, hrun⟩ := Option.isSome_iff_exists.mp hsome
  obtain ⟨txpart, rxpart, h1, _, h3, h4, _, _, _, h8, h9⟩ :=
    exchange_trace (mock_device 0x1000 true true false false) 8
      ⟨0x1000, 0x2000, 5, 50000000, 1000000, 0, 8, false⟩ (fun k => k + 1) (fun _ => 0)
      2 5 10 ⟨⟨[7, 9], fun _ => 0⟩, []⟩ cnt rdat1 s1
      (by intro k hk; interval_cases k <;> decide) (Or.inl ⟨rfl, hrun⟩)
  exact ⟨cnt, rdat1, s1, txpart, rxpart, hrun, by simpa using h1, h3, h4, h8, h9⟩

/-- C7: for both element widths (`pl022_rx8`, `pl022_rx16`), on the register mock whose receive
FIFO holds the `M` elements `fifo` of that width: with enough polling budget the call returns
the count `min M N`, which is `M` when `M < N` and never more than `N`; the first `min M N`
buffer slots hold the first `min M N` FIFO elements in order; and the accesses are chip-select
low, then status and data-register reads only (one data-register read for each element
counted), then chip-select high. -/
theorem receive_from_mock (tfe tnf rff bsy_data : Bool) (w : Nat) (pd : pl022_data)
    (fifo : List Nat) (regs : Nat → Nat) (tr : List Access) (rdat : Nat → Nat) (N : Nat)
    (hw : w = 8 ∨ w = 16) (hfifo : ∀ x ∈ fifo, x < 2 ^ w) :
    ∃ rdat1 s1 mid,
      (∀ fuel, fifo.length + 2 ≤ fuel →
        (w = 8 → pl022_rx8 (mock_device pd.base tfe tnf rff bsy_data) pd rdat N fuel
          ⟨⟨fifo, regs⟩, tr⟩ = some (min fifo.length N, rdat1, s1)) ∧
        (w = 16 → pl022_rx16 (mock_device pd.base tfe tnf rff bsy_data) pd rdat N fuel
          ⟨⟨fifo, regs⟩, tr⟩ = some (min fifo.length N, rdat1, s1))) ∧
      (fifo.length < N → min fifo.length N = fifo.length) ∧
      min fifo.length N ≤ N ∧
      (∀ k, k < min fifo.length N → rdat1 k = fifo.getD k 0) ∧
      s1.trace = tr ++ [Access.gpio_set_value pd.cs_gpio_pin GpioLevel.GPIO_LEVEL_LOW]
        ++ mid ++ [Access.gpio_set_value pd.cs_gpio_pin GpioLevel.GPIO_LEVEL_HIGH] ∧
      (∀ a ∈ mid, is_status_read pd.base a = true ∨ is_data_read pd.base a = true) ∧
      (data_reads pd.base mid).length = min fifo.length N ∧
      s1.dev.rxfifo = fifo.drop (min fifo.length N) := by
  obtain ⟨rdat1, s2, e1, e2, e3⟩ := mock_rx_drain tfe tnf rff bsy_data w pd N fifo
    (fifo.length + 2) rdat
    (gpio_set_value (mock_device pd.base tfe tnf rff bsy_data) pd.cs_gpio_pin
      GpioLevel.GPIO_LEVEL_LOW ⟨⟨fifo, regs⟩, tr⟩) rfl hfifo
    (by have := Nat.min_le_left fifo.length N; omega)
  obtain ⟨mid, htr, hmem, hcnt, _⟩ := rx_drain_trace _ w pd N _ _ _ _ _ _ _ e1
  have hall : ∀ fuel, fifo.length + 2 ≤ fuel →
      pl022_rx (mock_device pd.base tfe tnf rff bsy_data) w pd rdat N fuel ⟨⟨fifo, regs⟩, tr⟩
        = some (min fifo.length N, rdat1,
            gpio_set_value (mock_device pd.base tfe tnf rff bsy_data) pd.cs_gpio_pin
              GpioLevel.GPIO_LEVEL_HIGH s2) := by
    intro fuel hle
    unfold pl022_rx
    dsimp only
    rw [rx_drain_mono_le _ w pd N _ _ _ _ _ e1 fuel hle]
  refine ⟨rdat1, gpio_set_value (mock_device pd.base tfe tnf rff bsy_data) pd.cs_gpio_pin
    GpioLevel.GPIO_LEVEL_HIGH s2, mid, ?_, fun h => Nat.min_eq_left (le_of_lt h),
    Nat.min_le_right _ _, e3, ?_, hmem, by omega, ?_⟩
  · intro fuel hle
    constructor
    · intro h8
      subst h8
      exact hall fuel hle
    · intro h16
      subst h16
      exact hall fuel hle
  · simp [gpio_set_value, htr]
  · exact e2

/-- C7 at a concrete run: `pl022_rx8` with quota 5 on the mock holding the two elements 7
and 9 returns the count 2 with the two elements in the first two slots. -/
theorem receive_from_mock_witness :
    ∃ rdat1 s1,
      pl022_rx8 (mock_device 0x1000 true true false true)
        ⟨0x1000, 0x2000, 5, 50000000, 1000000, 0, 8, false⟩ (fun _ => 0) 5 4
        ⟨⟨[7, 9], fun _ => 0⟩, []⟩ = some (2, rdat1, s1) ∧
      rdat1 0 = 7 ∧ rdat1 1 = 9 := by
  obtain ⟨rdat1, s1, _, h1, _, _, h4, _⟩ := receive_from_mock true true false true 8
    ⟨0x1000, 0x2000, 5, 50000000, 1000000, 0, 8, false⟩ [7, 9] (fun _ => 0) [] (fun _ => 0) 5
    (Or.inl rfl) (by decide)
  exact ⟨rdat1, s1, (h1 4 (by decide)).1 rfl, h4 0 (by decide), h4 1 (by decide)⟩

/-- C9: on the register mock whose receive FIFO is pre-seeded with the `M` stale elements
`fifo`, `pl022_start` returns (given enough polling budget) after exactly these accesses: for
each stale element a status read and a data-register read, then a status read with
receive-FIFO-not-empty clear, a status read with busy clear, and one read-modify-write of SSPCR1
that stores the value read with bit 1 set and every other bit unchanged. -/
theorem start_drains_then_enables (tfe tnf rff bsy_data : Bool) (pd : pl022_data)
    (fifo : List Nat) (regs : Nat → Nat) (tr : List Access) :
    ∃ s1,
      (∀ fuel, fifo.length + 2 ≤ fuel →
        pl022_start (mock_device pd.base tfe tnf rff bsy_data) pd fuel ⟨⟨fifo, regs⟩, tr⟩
          = some s1) ∧
      s1.trace = tr ++ stale_reads pd.base tfe tnf rff bsy_data regs fifo
        ++ [Access.read 32 (pd.base + SSPSR) (mock_status tfe tnf rff bsy_data ⟨[], regs⟩),
            Access.read 32 (pd.base + SSPSR) (mock_status tfe tnf rff bsy_data ⟨[], regs⟩),
            Access.read 8 (pd.base + SSPCR1) (regs (pd.base + SSPCR1) % 256),
            Access.write 8 (pd.base + SSPCR1) (regs (pd.base + SSPCR1) % 256 ||| 2)] ∧
      (data_reads pd.base (stale_reads pd.base tfe tnf rff bsy_data regs fifo)).length
        = fifo.length ∧
      data_writes pd.base (stale_reads pd.base tfe tnf rff bsy_data regs fifo) = [] ∧
      (data_reads pd.base s1.trace).length = (data_reads pd.base tr).length + fifo.length ∧
      mock_status tfe tnf rff bsy_data ⟨[], regs⟩ &&& SSPSR_RNE = 0 ∧
      mock_status tfe tnf rff bsy_data ⟨[], regs⟩ &&& SSPSR_BSY = 0 ∧
      (regs (pd.base + SSPCR1) % 256 ||| 2).testBit 1 = true ∧
      (∀ i, i ≠ 1 → (regs (pd.base + SSPCR1) % 256 ||| 2).testBit i
        = (regs (pd.base + SSPCR1) % 256).testBit i) ∧
      s1.dev.rxfifo = [] := by
  have hcount := stale_reads_count pd.base tfe tnf rff bsy_data regs fifo
  have hne1 : ¬ SSPSR = SSPDR := by decide
  have hne2 : ¬ SSPCR1 = SSPDR := by decide
  have hwr : ∀ xs : List Nat,
      data_writes pd.base (stale_reads pd.base tfe tnf rff bsy_data regs xs) = [] := by
    intro xs
    induction xs with
    | nil => rfl
    | cons x t ih => simpa [stale_reads, data_writes] using ih
  refine ⟨_, fun fuel hle => mock_start tfe tnf rff bsy_data pd fifo fuel regs tr hle, rfl,
    hcount, hwr fifo, ?_, (mock_status_empty tfe tnf rff bsy_data ⟨[], regs⟩ rfl).1,
    (mock_status_empty tfe tnf rff bsy_data ⟨[], regs⟩ rfl).2, ?_, ?_, rfl⟩
  · dsimp only
    rw [data_reads_append, data_reads_append, List.length_append, List.length_append, hcount]
    simp [data_reads, hne1, hne2]
  · rw [Nat.testBit_or]
    have : Nat.testBit 2 1 = true := by decide
    rw [this, Bool.or_true]
  · intro i hi
    rw [Nat.testBit_or]
    have : Nat.testBit (2 ^ 1) i = false := Nat.testBit_two_pow_of_ne (Ne.symm hi)
    rw [show (2 : Nat) = 2 ^ 1 from rfl, this, Bool.or_false]

end PL022
